import Mathlib

/-!
# Verification of the `GestureRecognitionBlock` gesture engine

Shallow embedding of the gesture-recognition core of the xrblocks repository
(`GestureRecognitionBlock`): the per-hand gesture evaluator and its
start/update/end event lifecycle, the throttling logic of `update()`, and the
`computePinch` heuristic detector.

Modelling notes:
* JavaScript `Map`s (insertion-ordered, unique keys) are modelled as
  association lists `List (String × α)`; `Map.get` is `lookupA`, `Map.set` is
  `setA` (update in place, else append, matching JS insertion-order
  semantics), `Map.delete` is `eraseA`.
* Numbers are `ℚ` (the claims under verification are exact algebraic facts
  about linear ramps and comparisons, not float-rounding facts).
* The pose source (`buildHandContext`, which reads `user.hands`) is external
  input: each tick supplies an `Option HandContext` per hand, `none` exactly
  when `buildHandContext` would return `null`.
* `console.warn` is modelled as a warning count emitted by `update`.
* `thumb.distanceTo(index)` is Euclidean distance, irrational in general; the
  detector bodies are therefore embedded with the measured distance (or an
  abstract metric) as an explicit argument, with everything after the
  distance computation translated verbatim.
-/

namespace XRBlocks

/-- A 3D joint position (`THREE.Vector3`). -/
abbrev Vec3 : Type := ℚ × ℚ × ℚ

/-- `THREE.MathUtils.clamp(value, min, max) = Math.max(min, Math.min(max, value))`. -/
def clamp (value lo hi : ℚ) : ℚ := max lo (min hi value)

/-- Per-gesture configuration: `{ enabled: bool, threshold?: number }`. -/
structure GestureConfiguration where
  enabled : Bool
  threshold : Option ℚ
deriving DecidableEq, Repr

/-- `GestureRecognitionOptions`: the configuration surface consumed by the block. -/
structure GestureRecognitionOptions where
  enabled : Bool
  provider : String
  updateIntervalMs : ℚ
  minimumConfidence : ℚ
  /-- `Object.entries(this.options.gestures)`: insertion-ordered, unique keys. -/
  gestures : List (String × GestureConfiguration)
deriving DecidableEq, Repr

/-- Hand label `'left' | 'right'`. -/
inductive HandLabel : Type
  | left
  | right
deriving DecidableEq, Repr

/-- `HandContext`: per-hand geometric context built each evaluation tick. -/
structure HandContext where
  handLabel : HandLabel
  joints : List (String × Vec3)
deriving DecidableEq, Repr

/-- Auxiliary data attached to a detection (`Record<string, unknown>`),
modelled as named numeric fields. -/
abbrev GestureData : Type := List (String × ℚ)

/-- `GestureDetectionResult = { confidence: number, data?: ... }`. -/
structure GestureDetectionResult where
  confidence : ℚ
  data : Option GestureData
deriving DecidableEq, Repr

/-- `ActiveGestureState = { confidence: number, data?: ... }`. -/
structure ActiveGestureState where
  confidence : ℚ
  data : Option GestureData
deriving DecidableEq, Repr

/-- The three gesture event kinds. -/
inductive GestureEventType : Type
  | gesturestart
  | gestureupdate
  | gestureend
deriving DecidableEq, Repr

/-- `GestureEventDetail`: payload of an emitted gesture event. -/
structure GestureEventDetail where
  name : String
  hand : HandLabel
  confidence : ℚ
  data : Option GestureData
deriving DecidableEq, Repr

/-- An emitted event (`{type, detail}`; the `target` back-pointer is dropped). -/
structure GestureEvent where
  type : GestureEventType
  detail : GestureEventDetail
deriving DecidableEq, Repr

/-- A gesture detector: `(context, config) → GestureDetectionResult | undefined`. -/
abbrev Detector : Type := HandContext → GestureConfiguration → Option GestureDetectionResult

/-- The detector registry `this.detectors` (`Map.get` by gesture name). -/
abbrev DetectorRegistry : Type := String → Option Detector

/-! ## Association-list operations mirroring JS `Map` -/

/-- `Map.get k` on an insertion-ordered map. -/
def lookupA {α : Type} (k : String) : List (String × α) → Option α
  | [] => none
  | (k', v) :: rest => if k' = k then some v else lookupA k rest

/-- `Map.set k v`: overwrite in place if present (keeping insertion position),
else append. -/
def setA {α : Type} (k : String) (v : α) : List (String × α) → List (String × α)
  | [] => [(k, v)]
  | (k', v') :: rest => if k' = k then (k, v) :: rest else (k', v') :: setA k v rest

/-- `Map.delete k`. -/
def eraseA {α : Type} (k : String) : List (String × α) → List (String × α)
  | [] => []
  | (k', v') :: rest => if k' = k then eraseA k rest else (k', v') :: eraseA k rest

/-- The keys of an association list. -/
def keysA {α : Type} (l : List (String × α)) : List String := l.map Prod.fst

/-! ## Default thresholds (source constants) -/

def DEFAULT_PINCH_THRESHOLD : ℚ := 3/100
def DEFAULT_FIST_THRESHOLD : ℚ := 45/1000
def DEFAULT_OPEN_PALM_THRESHOLD : ℚ := 75/1000
def DEFAULT_POINT_THRESHOLD : ℚ := 7/100
def DEFAULT_SPREAD_THRESHOLD : ℚ := 5/100

/-! ## The pinch detector

`computePinch` in the source reads the two joints, computes
`distance = thumb.distanceTo(index)` and then scores it.  `computePinchDist`
is the body from the distance computation onward; `computePinch` is the full
detector, parameterised by the metric `dist` standing for Euclidean
`Vector3.distanceTo`. -/

/-- The scoring part of `computePinch`, given the measured thumb–index
distance:
```
const threshold = config.threshold ?? DEFAULT_PINCH_THRESHOLD;
const confidence = 1 - THREE.MathUtils.clamp(distance / (threshold * 1.5), 0, 1);
if (distance > threshold) return {confidence: confidence * 0.5};
return {confidence: THREE.MathUtils.clamp(confidence, 0, 1), data: {distance}};
``` -/
def computePinchDist (config : GestureConfiguration) (distance : ℚ) :
    GestureDetectionResult :=
  let threshold := config.threshold.getD DEFAULT_PINCH_THRESHOLD
  let confidence := 1 - clamp (distance / (threshold * (3/2))) 0 1
  if distance > threshold then
    { confidence := confidence * (1/2), data := none }
  else
    { confidence := clamp confidence 0 1, data := some [("distance", distance)] }

/-- The full `computePinch` detector: `undefined` when `thumb-tip` or
`index-finger-tip` is missing from the context. -/
def computePinch (dist : Vec3 → Vec3 → ℚ) (context : HandContext)
    (config : GestureConfiguration) : Option GestureDetectionResult :=
  match lookupA "thumb-tip" context.joints,
        lookupA "index-finger-tip" context.joints with
  | some thumb, some index => some (computePinchDist config (dist thumb index))
  | some _, none => none
  | none, some _ => none
  | none, none => none

/-! ## The per-hand evaluator (`evaluateHand`) -/

/-- An `end` event as emitted by the evaluator: `{name, hand, confidence: 0}`. -/
def mkEndEvent (name : String) (hand : HandLabel) : GestureEvent :=
  { type := .gestureend, detail := { name := name, hand := hand, confidence := 0, data := none } }

/-- Accumulator of the main loop over `Object.entries(this.options.gestures)`:
the active map being mutated, the events dispatched so far, and the
`processed` set. -/
structure EvalAcc where
  map : List (String × ActiveGestureState)
  events : List GestureEvent
  processed : List String
deriving DecidableEq, Repr

/-- One iteration of the main loop of `evaluateHand` for the entry
`(name, config)`: skip when disabled or no registered detector, otherwise run
the detector, add to `processed`, and fire the start/update/end transition
against the previous state. -/
def processGesture (detectors : DetectorRegistry) (minConf : ℚ)
    (ctx : HandContext) (hand : HandLabel) (acc : EvalAcc)
    (entry : String × GestureConfiguration) : EvalAcc :=
  let name := entry.1
  let config := entry.2
  if !config.enabled then acc
  else
    match detectors name with
    | none => acc
    | some detector =>
      let result := detector ctx config
      let processed := name :: acc.processed
      let previousState := lookupA name acc.map
      match result with
      | some r =>
        if minConf ≤ r.confidence then
          let detail : GestureEventDetail :=
            { name := name, hand := hand,
              confidence := clamp r.confidence 0 1, data := r.data }
          match previousState with
          | none =>
            { map := setA name ⟨detail.confidence, detail.data⟩ acc.map,
              events := acc.events ++ [{ type := .gesturestart, detail := detail }],
              processed := processed }
          | some _ =>
            { map := setA name ⟨detail.confidence, detail.data⟩ acc.map,
              events := acc.events ++ [{ type := .gestureupdate, detail := detail }],
              processed := processed }
        else
          match previousState with
          | some _ =>
            { map := eraseA name acc.map,
              events := acc.events ++ [mkEndEvent name hand],
              processed := processed }
          | none => { acc with processed := processed }
      | none =>
        match previousState with
        | some _ =>
          { map := eraseA name acc.map,
            events := acc.events ++ [mkEndEvent name hand],
            processed := processed }
        | none => { acc with processed := processed }

/-- `evaluateHand`: on a `null` context, emit `end` (confidence 0) for every
active gesture and clear the map; otherwise run the main loop over the
configured gestures, then purge (with `end` events) any active gesture not in
the `processed` set. Returns the new active map and the events dispatched, in
dispatch order. -/
def evaluateHand (detectors : DetectorRegistry) (minConf : ℚ)
    (gestures : List (String × GestureConfiguration)) (hand : HandLabel)
    (context : Option HandContext)
    (activeMap : List (String × ActiveGestureState)) :
    List (String × ActiveGestureState) × List GestureEvent :=
  match context with
  | none => ([], activeMap.map fun p => mkEndEvent p.1 hand)
  | some ctx =>
    let acc := gestures.foldl (processGesture detectors minConf ctx hand)
      { map := activeMap, events := [], processed := [] }
    let kept := acc.map.filter fun p => decide (p.1 ∈ acc.processed)
    let purged := acc.map.filter fun p => decide (p.1 ∉ acc.processed)
    (kept, acc.events ++ purged.map fun p => mkEndEvent p.1 hand)

/-! ## The per-tick entry point (`update`) -/

/-- The mutable fields of the block relevant per tick. -/
structure GestureState where
  activeLeft : List (String × ActiveGestureState)
  activeRight : List (String × ActiveGestureState)
  lastEvaluation : ℚ
  providerWarned : Bool
deriving DecidableEq, Repr

/-- External per-tick input: `performance.now()`, validity of
`this.user.hands`, and the contexts `buildHandContext` would produce for each
hand (`none` for `null`). -/
structure TickInput where
  now : ℚ
  handsValid : Bool
  leftContext : Option HandContext
  rightContext : Option HandContext
deriving DecidableEq, Repr

/-- The initial state of a freshly constructed block. -/
def initialState : GestureState :=
  { activeLeft := [], activeRight := [], lastEvaluation := 0, providerWarned := false }

/-- `update()`: guard on `enabled` and hand validity, throttle by
`updateIntervalMs` (forced to interval 0 for the `webxr` provider), warn once
for any other provider, then evaluate both hands. Returns the new state, the
events dispatched this tick (left hand's then right hand's), and the number
of `console.warn` calls this tick. -/
def update (opts : GestureRecognitionOptions) (detectors : DetectorRegistry)
    (tick : TickInput) (s : GestureState) :
    GestureState × List GestureEvent × Nat :=
  if !opts.enabled then (s, [], 0)
  else if !tick.handsValid then (s, [], 0)
  else
    let interval := if opts.provider = "webxr" then 0 else opts.updateIntervalMs
    if 0 < interval ∧ tick.now - s.lastEvaluation < interval then (s, [], 0)
    else
      let warnCount : Nat := if opts.provider ≠ "webxr" ∧ !s.providerWarned then 1 else 0
      let warned := s.providerWarned || opts.provider ≠ "webxr"
      let left := evaluateHand detectors opts.minimumConfidence opts.gestures
        .left tick.leftContext s.activeLeft
      let right := evaluateHand detectors opts.minimumConfidence opts.gestures
        .right tick.rightContext s.activeRight
      ({ activeLeft := left.1, activeRight := right.1,
         lastEvaluation := tick.now, providerWarned := warned },
       left.2 ++ right.2, warnCount)

/-! ## Specification functions

These express, per gesture name, what one evaluation tick decides; the
characterization theorems below prove that `evaluateHand` realises them. -/

/-- The verdict of one evaluation of gesture `name` with configuration `cfg`
on context `ctx`: `some` (with the stored state) exactly when the gesture is
enabled, has a registered detector, and the detector reports confidence at or
above the minimum. -/
def gestureVerdict (detectors : DetectorRegistry) (minConf : ℚ)
    (ctx : HandContext) (name : String) (cfg : GestureConfiguration) :
    Option ActiveGestureState :=
  if cfg.enabled then
    match detectors name with
    | some d =>
      match d ctx cfg with
      | some r =>
        if minConf ≤ r.confidence then some ⟨clamp r.confidence 0 1, r.data⟩ else none
      | none => none
    | none => none
  else none

/-- The verdict of one evaluation tick for gesture `name` on a hand whose
built context is `context` (`none` when the hand has no valid pose). -/
def evalVerdict (detectors : DetectorRegistry) (minConf : ℚ)
    (gestures : List (String × GestureConfiguration))
    (context : Option HandContext) (name : String) : Option ActiveGestureState :=
  match context with
  | none => none
  | some ctx =>
    match lookupA name gestures with
    | some cfg => gestureVerdict detectors minConf ctx name cfg
    | none => none

/-- The lifecycle events emitted for one gesture in one evaluated tick, as a
function of its previous active state and this tick's verdict. -/
def transitionEvents (name : String) (hand : HandLabel)
    (prev verdict : Option ActiveGestureState) : List GestureEvent :=
  match prev, verdict with
  | none, some v =>
    [{ type := .gesturestart,
       detail := { name := name, hand := hand, confidence := v.confidence, data := v.data } }]
  | some _, some v =>
    [{ type := .gestureupdate,
       detail := { name := name, hand := hand, confidence := v.confidence, data := v.data } }]
  | some _, none => [mkEndEvent name hand]
  | none, none => []

/-- The events of `evs` that concern gesture `name` on hand `hand`. -/
def eventsFor (name : String) (hand : HandLabel) (evs : List GestureEvent) :
    List GestureEvent :=
  evs.filter fun e => decide (e.detail.name = name ∧ e.detail.hand = hand)

/-! ## Concrete fixtures for instantiation theorems -/

/-- A one-gesture configuration table. -/
def wGestures : List (String × GestureConfiguration) := [("g", ⟨true, none⟩)]

/-- A detector reading its confidence off the x coordinate of joint `"v"`. -/
def wDetector : Detector := fun ctx _ =>
  match lookupA "v" ctx.joints with
  | some p => some ⟨p.1, none⟩
  | none => none

/-- A registry holding `wDetector` under the name `"g"`. -/
def wDetectors : DetectorRegistry :=
  fun n => if n = "g" then some wDetector else none

/-- A context on which `wDetector` reports confidence 1. -/
def wCtxOne : HandContext := ⟨.left, [("v", (1, 0, 0))]⟩

/-- A context on which `wDetector` reports confidence 0. -/
def wCtxZero : HandContext := ⟨.left, [("v", (0, 0, 0))]⟩

/-- Options: enabled, `webxr` provider, minimum confidence 1. -/
def wOpts : GestureRecognitionOptions := ⟨true, "webxr", 0, 1, wGestures⟩

/-- A tick tracking the left hand with confidence-1 context. -/
def wTickA : TickInput := ⟨1, true, some wCtxOne, none⟩

/-- A tick on which the left hand is lost. -/
def wTickB : TickInput := ⟨2, true, none, none⟩

/-- The state reached from `initialState` after `wTickA` under `wOpts`. -/
def wStateMid : GestureState := ⟨[("g", ⟨1, none⟩)], [], 1, false⟩

/-- The state reached from `wStateMid` after `wTickB` under `wOpts`. -/
def wStateEnd : GestureState := ⟨[], [], 2, false⟩

/-- Whether the main loop of `evaluateHand` adds `name` to the `processed`
set: the gesture is enabled and has a registered detector. -/
def wouldProcess (detectors : DetectorRegistry) (name : String)
    (cfg : GestureConfiguration) : Bool :=
  cfg.enabled && (detectors name).isSome


/-- Accessor for a hand's active map. -/
def handMap (s : GestureState) : HandLabel → List (String × ActiveGestureState)
  | .left => s.activeLeft
  | .right => s.activeRight

/-- Accessor for a hand's built context in a tick. -/
def tickContext (tick : TickInput) : HandLabel → Option HandContext
  | .left => tick.leftContext
  | .right => tick.rightContext

/-- Whether a gesture is currently tagged active on a hand. -/
def activeOn (s : GestureState) (hand : HandLabel) (name : String) : Bool :=
  (lookupA name (handMap s hand)).isSome

/-- Whether `update()` reaches the evaluation path on this tick: the block is
enabled, the hands are valid, and the throttle does not fire. -/
def evaluatesTick (opts : GestureRecognitionOptions) (tick : TickInput)
    (s : GestureState) : Prop :=
  opts.enabled = true ∧ tick.handsValid = true ∧
    ¬(0 < (if opts.provider = "webxr" then 0 else opts.updateIntervalMs) ∧
      tick.now - s.lastEvaluation <
        (if opts.provider = "webxr" then 0 else opts.updateIntervalMs))

instance (opts : GestureRecognitionOptions) (tick : TickInput) (s : GestureState) :
    Decidable (evaluatesTick opts tick s) := by
  unfold evaluatesTick
  infer_instance

/-- Both hands' active maps have unique keys (the JS `Map` invariant). -/
def GoodState (s : GestureState) : Prop :=
  (keysA s.activeLeft).Nodup ∧ (keysA s.activeRight).Nodup

/-! ## Multi-tick runs -/

/-- The events dispatched over a whole run of `update()` calls. -/
def runEvents (opts : GestureRecognitionOptions) (detectors : DetectorRegistry) :
    GestureState → List TickInput → List GestureEvent
  | _, [] => []
  | s, t :: ts =>
    (update opts detectors t s).2.1 ++
      runEvents opts detectors (update opts detectors t s).1 ts

/-- The state after a whole run of `update()` calls. -/
def runState (opts : GestureRecognitionOptions) (detectors : DetectorRegistry) :
    GestureState → List TickInput → GestureState
  | s, [] => s
  | s, t :: ts => runState opts detectors (update opts detectors t s).1 ts

/-- The total number of `console.warn` calls over a whole run. -/
def runWarnings (opts : GestureRecognitionOptions) (detectors : DetectorRegistry) :
    GestureState → List TickInput → Nat
  | _, [] => 0
  | s, t :: ts =>
    (update opts detectors t s).2.2 +
      runWarnings opts detectors (update opts detectors t s).1 ts

/-- The trace of a run: per tick, the state before, the tick input, the
events dispatched, and the state after. -/
def runTrace (opts : GestureRecognitionOptions) (detectors : DetectorRegistry) :
    GestureState → List TickInput →
      List (GestureState × TickInput × List GestureEvent × GestureState)
  | _, [] => []
  | s, t :: ts =>
    (s, t, (update opts detectors t s).2.1, (update opts detectors t s).1) ::
      runTrace opts detectors (update opts detectors t s).1 ts

/-! ## The lifecycle automaton

`seStep`/`seRun` check that a stream of events for one gesture on one hand is
a legal lifecycle: `start` only from inactive, `update`/`end` only from
active, with the activity bit evolving accordingly.  `seRun = some b` means
the stream is legal and leaves the gesture with activity `b`; in particular a
second `start` cannot occur before an `end`. -/

def seStep (active : Bool) (e : GestureEvent) : Option Bool :=
  match e.type with
  | .gesturestart => if active then none else some true
  | .gestureupdate => if active then some true else none
  | .gestureend => if active then some false else none

def seRun (active : Bool) : List GestureEvent → Option Bool
  | [] => some active
  | e :: es =>
    match seStep active e with
    | none => none
    | some a => seRun a es

/-! ## Association-list lemmas -/

theorem lookupA_setA_self {α : Type} (k : String) (v : α) (l : List (String × α)) :
    lookupA k (setA k v l) = some v := by
  induction l with
  | nil => simp [setA, lookupA]
  | cons p rest ih =>
    by_cases h : p.1 = k
    · simp [setA, h, lookupA]
    · simp [setA, h, lookupA, ih]

theorem lookupA_setA_ne {α : Type} {k k' : String} (h : k' ≠ k) (v : α)
    (l : List (String × α)) : lookupA k (setA k' v l) = lookupA k l := by
  induction l with
  | nil => simp [setA, lookupA, h]
  | cons p rest ih =>
    by_cases hp : p.1 = k'
    · simp [setA, hp, lookupA, h, hp ▸ h]
    · simp only [setA, hp, if_false, lookupA, ih]

theorem lookupA_eraseA_self {α : Type} (k : String) (l : List (String × α)) :
    lookupA k (eraseA k l) = none := by
  induction l with
  | nil => simp [eraseA, lookupA]
  | cons p rest ih =>
    by_cases hp : p.1 = k
    · simp [eraseA, hp, ih]
    · simp [eraseA, hp, lookupA, ih]

theorem lookupA_eraseA_ne {α : Type} {k k' : String} (h : k' ≠ k)
    (l : List (String × α)) : lookupA k (eraseA k' l) = lookupA k l := by
  induction l with
  | nil => simp [eraseA, lookupA]
  | cons p rest ih =>
    by_cases hp : p.1 = k'
    · simp [eraseA, hp, ih, lookupA, h]
    · simp only [eraseA, hp, if_false, lookupA, ih]

theorem lookupA_eq_none_iff {α : Type} {k : String} {l : List (String × α)} :
    lookupA k l = none ↔ k ∉ keysA l := by
  induction l with
  | nil => simp [lookupA, keysA]
  | cons p rest ih =>
    by_cases hp : p.1 = k
    · simp [lookupA, hp, keysA]
    · simp [lookupA, hp, keysA, ih, Ne.symm hp]

theorem lookupA_isSome_iff {α : Type} {k : String} {l : List (String × α)} :
    (lookupA k l).isSome ↔ k ∈ keysA l := by
  rcases h : lookupA k l with _ | v
  · simpa [h] using lookupA_eq_none_iff.mp h
  · have : k ∈ keysA l := by
      by_contra hk
      rw [lookupA_eq_none_iff.mpr hk] at h
      exact Option.noConfusion h
    simpa [h]

theorem lookupA_filter {α : Type} (f : String → Bool) (k : String)
    (l : List (String × α)) :
    lookupA k (l.filter fun p => f p.1) = if f k then lookupA k l else none := by
  induction l with
  | nil => simp [lookupA]
  | cons p rest ih =>
    by_cases hp : p.1 = k
    · subst hp
      by_cases hf : f p.1
      · simp [List.filter_cons, hf, lookupA, ih]
      · simp [List.filter_cons, hf, ih, lookupA]
    · by_cases hf : f p.1
      · simp [List.filter_cons, hf, lookupA, hp, ih]
      · simp [List.filter_cons, hf, ih, lookupA, hp]

/-- On a nodup-keyed association list, filtering to the single key `k` yields
exactly the entry `lookupA` finds (or nothing). -/
theorem filter_key_eq {α : Type} {k : String} {l : List (String × α)}
    (hnd : (keysA l).Nodup) :
    l.filter (fun p => decide (p.1 = k)) =
      (match lookupA k l with
       | some v => [(k, v)]
       | none => []) := by
  induction l with
  | nil => simp [lookupA]
  | cons p rest ih =>
    have hkeys : keysA (p :: rest) = p.1 :: keysA rest := rfl
    rw [hkeys, List.nodup_cons] at hnd
    by_cases hp : p.1 = k
    · subst hp
      have hnil : rest.filter (fun q => decide (q.1 = p.1)) = [] := by
        apply List.filter_eq_nil_iff.mpr
        intro q hq hdec
        exact hnd.1 ((of_decide_eq_true hdec) ▸ List.mem_map_of_mem Prod.fst hq)
      simp [List.filter_cons, lookupA, hnil]
    · simp [List.filter_cons, hp, lookupA, ih hnd.2]

theorem keysA_setA {α : Type} (k : String) (v : α) (l : List (String × α)) :
    keysA (setA k v l) = if k ∈ keysA l then keysA l else keysA l ++ [k] := by
  induction l with
  | nil => simp [setA, keysA]
  | cons p rest ih =>
    by_cases hp : p.1 = k
    · subst hp
      simp [setA, keysA]
    · have h1 : keysA (setA k v (p :: rest)) = p.1 :: keysA (setA k v rest) := by
        simp [setA, hp, keysA]
      have h2 : keysA (p :: rest) = p.1 :: keysA rest := rfl
      rw [h1, h2, ih]
      by_cases hmem : k ∈ keysA rest
      · simp [hmem, List.mem_cons]
      · simp [hmem, List.mem_cons, Ne.symm hp]

theorem keysA_setA_nodup {α : Type} {l : List (String × α)} (k : String) (v : α)
    (hnd : (keysA l).Nodup) : (keysA (setA k v l)).Nodup := by
  rw [keysA_setA]
  by_cases hm : k ∈ keysA l
  · simpa [hm]
  · simp only [hm, if_false]
    refine List.Nodup.append hnd (List.nodup_singleton k) ?_
    intro a ha hb
    simp only [List.mem_singleton] at hb
    subst hb
    exact hm ha

theorem keysA_eraseA_sublist {α : Type} (k : String) (l : List (String × α)) :
    List.Sublist (keysA (eraseA k l)) (keysA l) := by
  induction l with
  | nil => simp [eraseA, keysA]
  | cons p rest ih =>
    by_cases hp : p.1 = k
    · have h1 : keysA (eraseA k (p :: rest)) = keysA (eraseA k rest) := by
        simp [eraseA, hp]
      have h2 : keysA (p :: rest) = p.1 :: keysA rest := rfl
      rw [h1, h2]
      exact ih.trans (List.sublist_cons_self p.1 (keysA rest))
    · have h1 : keysA (eraseA k (p :: rest)) = p.1 :: keysA (eraseA k rest) := by
        simp [eraseA, hp, keysA]
      have h2 : keysA (p :: rest) = p.1 :: keysA rest := rfl
      rw [h1, h2]
      exact ih.cons₂ p.1

theorem keysA_eraseA_nodup {α : Type} {l : List (String × α)} (k : String)
    (hnd : (keysA l).Nodup) : (keysA (eraseA k l)).Nodup :=
  hnd.sublist (keysA_eraseA_sublist k l)

theorem keysA_filter_nodup {α : Type} {l : List (String × α)} (f : String × α → Bool)
    (hnd : (keysA l).Nodup) : (keysA (l.filter f)).Nodup :=
  hnd.sublist ((List.filter_sublist l).map Prod.fst)


/-! ## Characterization of `processGesture` -/

section Evaluator

variable (detectors : DetectorRegistry) (minConf : ℚ) (ctx : HandContext)
variable (hand : HandLabel)

/-- Every step of the main loop either leaves the accumulator alone, sets its
own key (emitting one event carrying its own name and hand), erases its own
key (emitting its end event), or merely records itself as processed. -/
theorem pg_cases (acc : EvalAcc) (e : String × GestureConfiguration) :
    processGesture detectors minConf ctx hand acc e = acc
    ∨ (∃ st ev, ev.detail.name = e.1 ∧ ev.detail.hand = hand ∧
        processGesture detectors minConf ctx hand acc e =
          ⟨setA e.1 st acc.map, acc.events ++ [ev], e.1 :: acc.processed⟩)
    ∨ processGesture detectors minConf ctx hand acc e =
        ⟨eraseA e.1 acc.map, acc.events ++ [mkEndEvent e.1 hand], e.1 :: acc.processed⟩
    ∨ processGesture detectors minConf ctx hand acc e =
        ⟨acc.map, acc.events, e.1 :: acc.processed⟩ := by
  unfold processGesture
  dsimp only
  split
  · exact Or.inl rfl
  · split
    · exact Or.inl rfl
    · split
      · split
        · split
          · exact Or.inr (Or.inl ⟨_, _, rfl, rfl, rfl⟩)
          · exact Or.inr (Or.inl ⟨_, _, rfl, rfl, rfl⟩)
        · split
          · exact Or.inr (Or.inr (Or.inl rfl))
          · exact Or.inr (Or.inr (Or.inr rfl))
      · split
        · exact Or.inr (Or.inr (Or.inl rfl))
        · exact Or.inr (Or.inr (Or.inr rfl))

theorem pg_lookup_ne {name : String} (acc : EvalAcc)
    (e : String × GestureConfiguration) (h : e.1 ≠ name) :
    lookupA name (processGesture detectors minConf ctx hand acc e).map =
      lookupA name acc.map := by
  rcases pg_cases detectors minConf ctx hand acc e with h1 | ⟨st, ev, _, _, h1⟩ | h1 | h1 <;>
    rw [h1] <;> simp [lookupA_setA_ne h, lookupA_eraseA_ne h]

theorem pg_eventsFor_ne {name : String} {hand' : HandLabel} (acc : EvalAcc)
    (e : String × GestureConfiguration) (h : e.1 ≠ name) :
    eventsFor name hand' (processGesture detectors minConf ctx hand acc e).events =
      eventsFor name hand' acc.events := by
  rcases pg_cases detectors minConf ctx hand acc e with
    h1 | ⟨st, ev, hne, hhe, h1⟩ | h1 | h1
  · rw [h1]
  · rw [h1]
    have hev : ev.detail.name ≠ name := by rw [hne]; exact h
    simp [eventsFor, List.filter_append, hev]
  · rw [h1]
    simp [eventsFor, List.filter_append, mkEndEvent, h]
  · rw [h1]

theorem pg_processed_iff_ne {name : String} (acc : EvalAcc)
    (e : String × GestureConfiguration) (h : e.1 ≠ name) :
    name ∈ (processGesture detectors minConf ctx hand acc e).processed ↔
      name ∈ acc.processed := by
  rcases pg_cases detectors minConf ctx hand acc e with
    h1 | ⟨st, ev, _, _, h1⟩ | h1 | h1 <;> rw [h1] <;>
    simp [List.mem_cons, Ne.symm h]

theorem pg_processed_mono {name : String} (acc : EvalAcc)
    (e : String × GestureConfiguration) (h : name ∈ acc.processed) :
    name ∈ (processGesture detectors minConf ctx hand acc e).processed := by
  rcases pg_cases detectors minConf ctx hand acc e with
    h1 | ⟨st, ev, _, _, h1⟩ | h1 | h1 <;> rw [h1] <;>
    simp [List.mem_cons, h]

theorem pg_nodup (acc : EvalAcc) (e : String × GestureConfiguration)
    (hnd : (keysA acc.map).Nodup) :
    (keysA (processGesture detectors minConf ctx hand acc e).map).Nodup := by
  rcases pg_cases detectors minConf ctx hand acc e with
    h1 | ⟨st, ev, _, _, h1⟩ | h1 | h1 <;> rw [h1]
  · exact hnd
  · exact keysA_setA_nodup e.1 st hnd
  · exact keysA_eraseA_nodup e.1 hnd
  · exact hnd

theorem pg_events_hand (acc : EvalAcc) (e : String × GestureConfiguration) :
    ∀ ev ∈ (processGesture detectors minConf ctx hand acc e).events,
      ev ∈ acc.events ∨ ev.detail.hand = hand := by
  rcases pg_cases detectors minConf ctx hand acc e with
    h1 | ⟨st, ev', _, hh, h1⟩ | h1 | h1 <;> rw [h1] <;> intro ev hev
  · exact Or.inl hev
  · rcases List.mem_append.mp hev with h | h
    · exact Or.inl h
    · simp only [List.mem_singleton] at h
      exact Or.inr (h ▸ hh)
  · rcases List.mem_append.mp hev with h | h
    · exact Or.inl h
    · simp only [List.mem_singleton] at h
      exact Or.inr (h ▸ rfl)
  · exact Or.inl hev

/-- Characterization of a loop iteration at its own entry `(name, cfg)`. -/
theorem pg_self (acc : EvalAcc) (name : String) (cfg : GestureConfiguration) :
    (wouldProcess detectors name cfg = false ∧
      processGesture detectors minConf ctx hand acc (name, cfg) = acc)
    ∨ (wouldProcess detectors name cfg = true ∧
       (processGesture detectors minConf ctx hand acc (name, cfg)).processed =
          name :: acc.processed ∧
       lookupA name (processGesture detectors minConf ctx hand acc (name, cfg)).map =
          gestureVerdict detectors minConf ctx name cfg ∧
       (processGesture detectors minConf ctx hand acc (name, cfg)).events =
          acc.events ++ transitionEvents name hand (lookupA name acc.map)
            (gestureVerdict detectors minConf ctx name cfg) ∧
       (∀ k, k ≠ name →
          lookupA k (processGesture detectors minConf ctx hand acc (name, cfg)).map =
            lookupA k acc.map)) := by
  by_cases hen : cfg.enabled
  · rcases hdet : detectors name with _ | d
    · refine Or.inl ⟨by simp [wouldProcess, hdet], ?_⟩
      simp [processGesture, hen, hdet]
    · refine Or.inr ⟨by simp [wouldProcess, hdet, hen], ?_, ?_, ?_, ?_⟩
      · rcases hres : d ctx cfg with _ | r
        · rcases hprev : lookupA name acc.map with _ | st <;>
            simp [processGesture, hen, hdet, hres, hprev]
        · by_cases hconf : minConf ≤ r.confidence <;>
            rcases hprev : lookupA name acc.map with _ | st <;>
            simp [processGesture, hen, hdet, hres, hprev, hconf]
      · rcases hres : d ctx cfg with _ | r
        · rcases hprev : lookupA name acc.map with _ | st <;>
            simp [processGesture, gestureVerdict, hen, hdet, hres, hprev,
              lookupA_eraseA_self]
        · by_cases hconf : minConf ≤ r.confidence <;>
            rcases hprev : lookupA name acc.map with _ | st <;>
            simp [processGesture, gestureVerdict, hen, hdet, hres, hprev, hconf,
              lookupA_setA_self, lookupA_eraseA_self]
      · rcases hres : d ctx cfg with _ | r
        · rcases hprev : lookupA name acc.map with _ | st <;>
            simp [processGesture, gestureVerdict, transitionEvents, hen, hdet,
              hres, hprev]
        · by_cases hconf : minConf ≤ r.confidence <;>
            rcases hprev : lookupA name acc.map with _ | st <;>
            simp [processGesture, gestureVerdict, transitionEvents, hen, hdet,
              hres, hprev, hconf]
      · intro k hk
        rcases hres : d ctx cfg with _ | r
        · rcases hprev : lookupA name acc.map with _ | st <;>
            simp [processGesture, hen, hdet, hres, hprev,
              lookupA_eraseA_ne (Ne.symm hk)]
        · by_cases hconf : minConf ≤ r.confidence <;>
            rcases hprev : lookupA name acc.map with _ | st <;>
            simp [processGesture, hen, hdet, hres, hprev, hconf,
              lookupA_setA_ne (Ne.symm hk), lookupA_eraseA_ne (Ne.symm hk)]
  · refine Or.inl ⟨by simp [wouldProcess, hen], ?_⟩
    simp [processGesture, hen]

/-- A name not occurring in the remaining gesture entries is untouched by the
rest of the main loop. -/
theorem fold_notin {name : String} (gs : List (String × GestureConfiguration))
    (acc : EvalAcc) (h : name ∉ keysA gs) :
    lookupA name ((gs.foldl (processGesture detectors minConf ctx hand) acc).map) =
        lookupA name acc.map
    ∧ (∀ hand', eventsFor name hand'
        ((gs.foldl (processGesture detectors minConf ctx hand) acc).events) =
          eventsFor name hand' acc.events)
    ∧ ((name ∈ (gs.foldl (processGesture detectors minConf ctx hand) acc).processed) ↔
        name ∈ acc.processed) := by
  induction gs generalizing acc with
  | nil => exact ⟨rfl, fun _ => rfl, Iff.rfl⟩
  | cons e rest ih =>
    simp only [keysA, List.map_cons, List.mem_cons] at h
    push_neg at h
    obtain ⟨he, hrest⟩ := h
    simp only [List.foldl_cons]
    obtain ⟨h1, h2, h3⟩ :=
      ih (processGesture detectors minConf ctx hand acc e) hrest
    exact ⟨h1.trans (pg_lookup_ne detectors minConf ctx hand acc e (Ne.symm he)),
           fun hand' => (h2 hand').trans
             (pg_eventsFor_ne detectors minConf ctx hand acc e (Ne.symm he)),
           h3.trans (pg_processed_iff_ne detectors minConf ctx hand acc e (Ne.symm he))⟩

theorem fold_nodup (gs : List (String × GestureConfiguration)) (acc : EvalAcc)
    (hnd : (keysA acc.map).Nodup) :
    (keysA ((gs.foldl (processGesture detectors minConf ctx hand) acc).map)).Nodup := by
  induction gs generalizing acc with
  | nil => exact hnd
  | cons e rest ih =>
    simp only [List.foldl_cons]
    exact ih _ (pg_nodup detectors minConf ctx hand acc e hnd)

theorem fold_events_hand (gs : List (String × GestureConfiguration)) (acc : EvalAcc) :
    ∀ ev ∈ (gs.foldl (processGesture detectors minConf ctx hand) acc).events,
      ev ∈ acc.events ∨ ev.detail.hand = hand := by
  induction gs generalizing acc with
  | nil => exact fun ev hev => Or.inl hev
  | cons e rest ih =>
    intro ev hev
    simp only [List.foldl_cons] at hev
    rcases ih (processGesture detectors minConf ctx hand acc e) ev hev with h | h
    · exact pg_events_hand detectors minConf ctx hand acc e ev h
    · exact Or.inr h

end Evaluator

/-! ## Helper lemmas about events and filters -/

theorem eventsFor_append (name : String) (hand : HandLabel)
    (a b : List GestureEvent) :
    eventsFor name hand (a ++ b) = eventsFor name hand a ++ eventsFor name hand b :=
  List.filter_append a b

theorem eventsFor_transition (name : String) (hand : HandLabel)
    (prev v : Option ActiveGestureState) :
    eventsFor name hand (transitionEvents name hand prev v) =
      transitionEvents name hand prev v := by
  rcases prev with _ | p <;> rcases v with _ | st <;>
    simp [transitionEvents, eventsFor, mkEndEvent]

theorem eventsFor_endMap (name : String) (hand : HandLabel)
    (l : List (String × ActiveGestureState)) :
    eventsFor name hand (l.map fun p => mkEndEvent p.1 hand) =
      (l.filter fun p => decide (p.1 = name)).map fun p => mkEndEvent p.1 hand := by
  induction l with
  | nil => rfl
  | cons p rest ih =>
    by_cases hp : p.1 = name
    · simp only [List.map_cons, eventsFor, List.filter_cons]
      rw [show (decide ((mkEndEvent p.1 hand).detail.name = name ∧
          (mkEndEvent p.1 hand).detail.hand = hand)) = true by simp [mkEndEvent, hp],
        show (decide (p.1 = name)) = true by simp [hp]]
      simpa [eventsFor] using ih
    · simp only [List.map_cons, eventsFor, List.filter_cons]
      rw [show (decide ((mkEndEvent p.1 hand).detail.name = name ∧
          (mkEndEvent p.1 hand).detail.hand = hand)) = false by simp [mkEndEvent, hp],
        show (decide (p.1 = name)) = false by simp [hp]]
      simpa [eventsFor] using ih

theorem filter_and_of_imp {α : Type} {f g : α → Bool} {l : List α}
    (h : ∀ a ∈ l, f a = true → g a = true) :
    (l.filter fun a => f a && g a) = l.filter f := by
  induction l with
  | nil => rfl
  | cons x rest ih =>
    have hrest : ∀ a ∈ rest, f a = true → g a = true :=
      fun a ha => h a (List.mem_cons_of_mem x ha)
    by_cases hf : f x = true
    · simp [List.filter_cons, hf, h x (List.mem_cons_self x rest) hf, ih hrest]
    · simp only [Bool.not_eq_true] at hf
      simp [List.filter_cons, hf, ih hrest]

theorem gestureVerdict_none_of_unprocessed (detectors : DetectorRegistry)
    (minConf : ℚ) (ctx : HandContext) {name : String} {cfg : GestureConfiguration}
    (hwp : wouldProcess detectors name cfg = false) :
    gestureVerdict detectors minConf ctx name cfg = none := by
  simp only [wouldProcess, Bool.and_eq_false_iff] at hwp
  unfold gestureVerdict
  rcases hwp with h | h
  · simp [h]
  · rcases hdet : detectors name with _ | d
    · simp
    · rw [hdet] at h
      simp at h

theorem lookupA_split {α : Type} {k : String} {v : α} {l : List (String × α)}
    (hnd : (keysA l).Nodup) (h : lookupA k l = some v) :
    ∃ l₁ l₂, l = l₁ ++ (k, v) :: l₂ ∧ k ∉ keysA l₁ ∧ k ∉ keysA l₂ := by
  induction l with
  | nil => simp [lookupA] at h
  | cons p rest ih =>
    rw [show keysA (p :: rest) = p.1 :: keysA rest from rfl, List.nodup_cons] at hnd
    by_cases hp : p.1 = k
    · have hv : p.2 = v := by
        rw [lookupA, if_pos hp] at h
        exact Option.some.inj h
      refine ⟨[], rest, ?_, by simp [keysA], hp ▸ hnd.1⟩
      simp [← hp, ← hv]
    · rw [lookupA, if_neg hp] at h
      obtain ⟨l₁, l₂, heq, h1, h2⟩ := ih hnd.2 h
      refine ⟨p :: l₁, l₂, by rw [heq]; simp, ?_, h2⟩
      intro hmem
      rw [show keysA (p :: l₁) = p.1 :: keysA l₁ from rfl] at hmem
      rcases List.mem_cons.mp hmem with hk | hk
      · exact hp hk.symm
      · exact h1 hk

/-! ## Characterization of `evaluateHand`

Per gesture name, one evaluation tick leaves the active map holding exactly
this tick's verdict, and emits exactly the lifecycle transition determined by
the previous state and the verdict. -/

section EvaluatorSpec

variable (detectors : DetectorRegistry) (minConf : ℚ) (ctx : HandContext)
variable (hand : HandLabel)

/-- What the main loop of `evaluateHand` establishes for each gesture name:
either the name was processed and the map and events reflect the verdict, or
it was not processed and nothing about it changed. -/
theorem fold_spec (gestures : List (String × GestureConfiguration))
    (activeMap : List (String × ActiveGestureState)) (name : String)
    (hg : (keysA gestures).Nodup) :
    (name ∈ (gestures.foldl (processGesture detectors minConf ctx hand)
        ⟨activeMap, [], []⟩).processed
      ∧ lookupA name ((gestures.foldl (processGesture detectors minConf ctx hand)
          ⟨activeMap, [], []⟩).map) =
        evalVerdict detectors minConf gestures (some ctx) name
      ∧ eventsFor name hand ((gestures.foldl (processGesture detectors minConf ctx hand)
          ⟨activeMap, [], []⟩).events) =
        transitionEvents name hand (lookupA name activeMap)
          (evalVerdict detectors minConf gestures (some ctx) name))
    ∨ (name ∉ (gestures.foldl (processGesture detectors minConf ctx hand)
        ⟨activeMap, [], []⟩).processed
      ∧ lookupA name ((gestures.foldl (processGesture detectors minConf ctx hand)
          ⟨activeMap, [], []⟩).map) = lookupA name activeMap
      ∧ eventsFor name hand ((gestures.foldl (processGesture detectors minConf ctx hand)
          ⟨activeMap, [], []⟩).events) = []
      ∧ evalVerdict detectors minConf gestures (some ctx) name = none) := by
  rcases hlook : lookupA name gestures with _ | cfg
  · -- the gesture is not configured at all
    obtain ⟨h1, h2, h3⟩ := fold_notin detectors minConf ctx hand gestures
      ⟨activeMap, [], []⟩ (lookupA_eq_none_iff.mp hlook)
    refine Or.inr ⟨?_, h1, (h2 hand).trans rfl, ?_⟩
    · intro hmem
      exact absurd (h3.mp hmem) (List.not_mem_nil name)
    · simp [evalVerdict, hlook]
  · obtain ⟨gs₁, gs₂, hsplit, hn1, hn2⟩ := lookupA_split hg hlook
    have hverd : evalVerdict detectors minConf gestures (some ctx) name =
        gestureVerdict detectors minConf ctx name cfg := by
      simp [evalVerdict, hlook]
    subst hsplit
    rw [List.foldl_append, List.foldl_cons]
    obtain ⟨a1, a2, a3⟩ := fold_notin detectors minConf ctx hand gs₁
      ⟨activeMap, [], []⟩ hn1
    rcases pg_self detectors minConf ctx hand
        (gs₁.foldl (processGesture detectors minConf ctx hand) ⟨activeMap, [], []⟩)
        name cfg with ⟨hwp, hstep⟩ | ⟨hwp, hproc, hlk, hev, hoth⟩
    · rw [hstep]
      obtain ⟨b1, b2, b3⟩ := fold_notin detectors minConf ctx hand gs₂
        (gs₁.foldl (processGesture detectors minConf ctx hand) ⟨activeMap, [], []⟩) hn2
      refine Or.inr ⟨?_, b1.trans a1, (b2 hand).trans ((a2 hand).trans rfl), ?_⟩
      · intro hmem
        exact absurd (a3.mp (b3.mp hmem)) (List.not_mem_nil name)
      · rw [hverd]
        exact gestureVerdict_none_of_unprocessed detectors minConf ctx hwp
    · obtain ⟨b1, b2, b3⟩ := fold_notin detectors minConf ctx hand gs₂
        (processGesture detectors minConf ctx hand
          (gs₁.foldl (processGesture detectors minConf ctx hand) ⟨activeMap, [], []⟩)
          (name, cfg)) hn2
      refine Or.inl ⟨?_, ?_, ?_⟩
      · apply b3.mpr
        rw [hproc]
        exact List.mem_cons_self name _
      · rw [b1, hlk, hverd]
      · rw [b2 hand, hev, eventsFor_append, a2 hand, a1, hverd]
        show [] ++ _ = _
        rw [List.nil_append, eventsFor_transition]

/-- `evaluateHand` leaves `name` in the new active map with exactly this
tick's verdict, and emits for `name` exactly the lifecycle transition from
its previous state to that verdict. -/
theorem evaluateHand_spec (gestures : List (String × GestureConfiguration))
    (context : Option HandContext)
    (activeMap : List (String × ActiveGestureState)) (name : String)
    (hg : (keysA gestures).Nodup) (hm : (keysA activeMap).Nodup) :
    lookupA name (evaluateHand detectors minConf gestures hand context activeMap).1 =
      evalVerdict detectors minConf gestures context name
    ∧ eventsFor name hand
        (evaluateHand detectors minConf gestures hand context activeMap).2 =
      transitionEvents name hand (lookupA name activeMap)
        (evalVerdict detectors minConf gestures context name) := by
  rcases context with _ | ctx
  · refine ⟨by simp [evaluateHand, evalVerdict, lookupA], ?_⟩
    show eventsFor name hand (activeMap.map fun p => mkEndEvent p.1 hand) =
      transitionEvents name hand (lookupA name activeMap) none
    rw [eventsFor_endMap, filter_key_eq hm]
    rcases hprev : lookupA name activeMap with _ | st
    · simp [transitionEvents]
    · simp [transitionEvents]
  · have hndacc : (keysA ((gestures.foldl (processGesture detectors minConf ctx hand)
        ⟨activeMap, [], []⟩).map)).Nodup :=
      fold_nodup detectors minConf ctx hand gestures ⟨activeMap, [], []⟩ hm
    have hfst : (evaluateHand detectors minConf gestures hand (some ctx) activeMap).1 =
        ((gestures.foldl (processGesture detectors minConf ctx hand)
            ⟨activeMap, [], []⟩).map.filter
          fun p => decide (p.1 ∈ (gestures.foldl (processGesture detectors minConf ctx hand)
            ⟨activeMap, [], []⟩).processed)) := rfl
    have hsnd : (evaluateHand detectors minConf gestures hand (some ctx) activeMap).2 =
        (gestures.foldl (processGesture detectors minConf ctx hand)
            ⟨activeMap, [], []⟩).events ++
          ((gestures.foldl (processGesture detectors minConf ctx hand)
              ⟨activeMap, [], []⟩).map.filter
            fun p => decide (p.1 ∉ (gestures.foldl (processGesture detectors minConf ctx hand)
              ⟨activeMap, [], []⟩).processed)).map
            (fun p => mkEndEvent p.1 hand) := rfl
    rcases fold_spec detectors minConf ctx hand gestures activeMap name hg with
      ⟨hmem, hl, he⟩ | ⟨hmem, hl, he, hv⟩
    · constructor
      · rw [hfst]
        have hf : lookupA name
            ((gestures.foldl (processGesture detectors minConf ctx hand)
                ⟨activeMap, [], []⟩).map.filter
              fun p => decide (p.1 ∈ (gestures.foldl
                (processGesture detectors minConf ctx hand)
                ⟨activeMap, [], []⟩).processed)) =
            if decide (name ∈ (gestures.foldl (processGesture detectors minConf ctx hand)
                ⟨activeMap, [], []⟩).processed) then
              lookupA name ((gestures.foldl (processGesture detectors minConf ctx hand)
                ⟨activeMap, [], []⟩).map)
            else none :=
          lookupA_filter
            (fun k => decide (k ∈ (gestures.foldl (processGesture detectors minConf ctx hand)
              ⟨activeMap, [], []⟩).processed)) name _
        rw [hf, if_pos (by simpa using hmem)]
        exact hl
      · rw [hsnd, eventsFor_append, he, eventsFor_endMap]
        have hnil : ((gestures.foldl (processGesture detectors minConf ctx hand)
            ⟨activeMap, [], []⟩).map.filter
              fun p => decide (p.1 ∉ (gestures.foldl
                (processGesture detectors minConf ctx hand)
                ⟨activeMap, [], []⟩).processed)).filter
              (fun p => decide (p.1 = name)) = [] := by
          apply List.filter_eq_nil_iff.mpr
          intro a ha hdec
          have hn : a.1 = name := of_decide_eq_true hdec
          have hnp : a.1 ∉ (gestures.foldl (processGesture detectors minConf ctx hand)
              ⟨activeMap, [], []⟩).processed :=
            of_decide_eq_true (List.mem_filter.mp ha).2
          exact hnp (hn ▸ hmem)
        rw [hnil]
        simp
    · constructor
      · rw [hfst]
        have hf : lookupA name
            ((gestures.foldl (processGesture detectors minConf ctx hand)
                ⟨activeMap, [], []⟩).map.filter
              fun p => decide (p.1 ∈ (gestures.foldl
                (processGesture detectors minConf ctx hand)
                ⟨activeMap, [], []⟩).processed)) =
            if decide (name ∈ (gestures.foldl (processGesture detectors minConf ctx hand)
                ⟨activeMap, [], []⟩).processed) then
              lookupA name ((gestures.foldl (processGesture detectors minConf ctx hand)
                ⟨activeMap, [], []⟩).map)
            else none :=
          lookupA_filter
            (fun k => decide (k ∈ (gestures.foldl (processGesture detectors minConf ctx hand)
              ⟨activeMap, [], []⟩).processed)) name _
        rw [hf, if_neg (by simpa using hmem), hv]
      · rw [hsnd, eventsFor_append, he, List.nil_append, eventsFor_endMap]
        have hfilters : ((gestures.foldl (processGesture detectors minConf ctx hand)
            ⟨activeMap, [], []⟩).map.filter
              fun p => decide (p.1 ∉ (gestures.foldl
                (processGesture detectors minConf ctx hand)
                ⟨activeMap, [], []⟩).processed)).filter
              (fun p => decide (p.1 = name)) =
            (gestures.foldl (processGesture detectors minConf ctx hand)
              ⟨activeMap, [], []⟩).map.filter (fun p => decide (p.1 = name)) := by
          rw [List.filter_filter]
          apply filter_and_of_imp
          intro a ha hf
          have hn : a.1 = name := of_decide_eq_true hf
          exact decide_eq_true (hn ▸ hmem)
        rw [hfilters, filter_key_eq hndacc, hl, hv]
        rcases lookupA name activeMap with _ | st <;> simp [transitionEvents]

end EvaluatorSpec

/-! ## Further structural facts about `evaluateHand` -/

theorem evaluateHand_nodup (detectors : DetectorRegistry) (minConf : ℚ)
    (gestures : List (String × GestureConfiguration)) (hand : HandLabel)
    (context : Option HandContext)
    (activeMap : List (String × ActiveGestureState))
    (hm : (keysA activeMap).Nodup) :
    (keysA (evaluateHand detectors minConf gestures hand context activeMap).1).Nodup := by
  rcases context with _ | ctx
  · simp [evaluateHand, keysA]
  · exact keysA_filter_nodup _
      (fold_nodup detectors minConf ctx hand gestures ⟨activeMap, [], []⟩ hm)

theorem evaluateHand_events_hand (detectors : DetectorRegistry) (minConf : ℚ)
    (gestures : List (String × GestureConfiguration)) (hand : HandLabel)
    (context : Option HandContext)
    (activeMap : List (String × ActiveGestureState)) :
    ∀ ev ∈ (evaluateHand detectors minConf gestures hand context activeMap).2,
      ev.detail.hand = hand := by
  rcases context with _ | ctx
  · intro ev hev
    obtain ⟨p, hp, rfl⟩ := List.mem_map.mp hev
    rfl
  · intro ev hev
    rcases List.mem_append.mp hev with h | h
    · rcases fold_events_hand detectors minConf ctx hand gestures
        ⟨activeMap, [], []⟩ ev h with h0 | h0
      · exact absurd h0 (List.not_mem_nil ev)
      · exact h0
    · obtain ⟨p, hp, rfl⟩ := List.mem_map.mp h
      rfl

/-- Events of one hand's evaluation never show up when filtering for the
other hand. -/
theorem eventsFor_other_hand (detectors : DetectorRegistry) (minConf : ℚ)
    (gestures : List (String × GestureConfiguration)) {hand hand' : HandLabel}
    (context : Option HandContext)
    (activeMap : List (String × ActiveGestureState)) (name : String)
    (h : hand' ≠ hand) :
    eventsFor name hand'
      (evaluateHand detectors minConf gestures hand context activeMap).2 = [] := by
  apply List.filter_eq_nil_iff.mpr
  intro ev hev hdec
  have h2 := (of_decide_eq_true hdec).2
  exact h (h2 ▸ (evaluateHand_events_hand detectors minConf gestures hand
    context activeMap ev hev))

/-! ## Per-tick (`update`) lemmas -/

theorem update_eq_of_not_evaluates (opts : GestureRecognitionOptions)
    (detectors : DetectorRegistry) (tick : TickInput) (s : GestureState)
    (h : ¬evaluatesTick opts tick s) :
    update opts detectors tick s = (s, [], 0) := by
  by_cases h1 : opts.enabled
  · by_cases h2 : tick.handsValid
    · have h3 : 0 < (if opts.provider = "webxr" then 0 else opts.updateIntervalMs) ∧
          tick.now - s.lastEvaluation <
            (if opts.provider = "webxr" then 0 else opts.updateIntervalMs) := by
        by_contra hc
        exact h ⟨h1, h2, hc⟩
      simp [update, h1, h2, h3]
    · simp [update, h2]
  · simp [update, h1]

theorem update_eq_of_evaluates (opts : GestureRecognitionOptions)
    (detectors : DetectorRegistry) (tick : TickInput) (s : GestureState)
    (h : evaluatesTick opts tick s) :
    update opts detectors tick s =
      ({ activeLeft := (evaluateHand detectors opts.minimumConfidence opts.gestures
            .left tick.leftContext s.activeLeft).1,
         activeRight := (evaluateHand detectors opts.minimumConfidence opts.gestures
            .right tick.rightContext s.activeRight).1,
         lastEvaluation := tick.now,
         providerWarned := s.providerWarned || opts.provider ≠ "webxr" },
       (evaluateHand detectors opts.minimumConfidence opts.gestures
          .left tick.leftContext s.activeLeft).2 ++
         (evaluateHand detectors opts.minimumConfidence opts.gestures
            .right tick.rightContext s.activeRight).2,
       if opts.provider ≠ "webxr" ∧ !s.providerWarned then 1 else 0) := by
  obtain ⟨h1, h2, h3⟩ := h
  simp [update, h1, h2, h3]

theorem update_good (opts : GestureRecognitionOptions)
    (detectors : DetectorRegistry) (tick : TickInput) (s : GestureState)
    (hs : GoodState s) : GoodState (update opts detectors tick s).1 := by
  by_cases h : evaluatesTick opts tick s
  · rw [update_eq_of_evaluates opts detectors tick s h]
    exact ⟨evaluateHand_nodup _ _ _ _ _ _ hs.1, evaluateHand_nodup _ _ _ _ _ _ hs.2⟩
  · rw [update_eq_of_not_evaluates opts detectors tick s h]
    exact hs

/-- After an evaluated tick, a hand's map holds exactly this tick's verdicts. -/
theorem update_lookup (opts : GestureRecognitionOptions)
    (detectors : DetectorRegistry) (tick : TickInput) (s : GestureState)
    (name : String) (hand : HandLabel)
    (hg : (keysA opts.gestures).Nodup) (hs : GoodState s)
    (h : evaluatesTick opts tick s) :
    lookupA name (handMap (update opts detectors tick s).1 hand) =
      evalVerdict detectors opts.minimumConfidence opts.gestures
        (tickContext tick hand) name := by
  rw [update_eq_of_evaluates opts detectors tick s h]
  rcases hand
  · exact (evaluateHand_spec detectors opts.minimumConfidence .left
      opts.gestures tick.leftContext s.activeLeft name hg hs.1).1
  · exact (evaluateHand_spec detectors opts.minimumConfidence .right
      opts.gestures tick.rightContext s.activeRight name hg hs.2).1

/-- The events an evaluated tick emits for a given gesture and hand are
exactly the lifecycle transition for that gesture on that hand. -/
theorem update_eventsFor (opts : GestureRecognitionOptions)
    (detectors : DetectorRegistry) (tick : TickInput) (s : GestureState)
    (name : String) (hand : HandLabel)
    (hg : (keysA opts.gestures).Nodup) (hs : GoodState s)
    (h : evaluatesTick opts tick s) :
    eventsFor name hand (update opts detectors tick s).2.1 =
      transitionEvents name hand (lookupA name (handMap s hand))
        (evalVerdict detectors opts.minimumConfidence opts.gestures
          (tickContext tick hand) name) := by
  rw [update_eq_of_evaluates opts detectors tick s h]
  rcases hand
  · show eventsFor name .left (_ ++ _) = _
    rw [eventsFor_append,
      eventsFor_other_hand detectors opts.minimumConfidence opts.gestures
        tick.rightContext s.activeRight name (by simp),
      List.append_nil]
    exact (evaluateHand_spec detectors opts.minimumConfidence .left
      opts.gestures tick.leftContext s.activeLeft name hg hs.1).2
  · show eventsFor name .right (_ ++ _) = _
    rw [eventsFor_append,
      eventsFor_other_hand detectors opts.minimumConfidence opts.gestures
        tick.leftContext s.activeLeft name (by simp),
      List.nil_append]
    exact (evaluateHand_spec detectors opts.minimumConfidence .right
      opts.gestures tick.rightContext s.activeRight name hg hs.2).2

theorem seRun_append (a : Bool) (xs ys : List GestureEvent) :
    seRun a (xs ++ ys) = (seRun a xs).bind fun b => seRun b ys := by
  induction xs generalizing a with
  | nil => rfl
  | cons e es ih =>
    simp only [List.cons_append, seRun]
    rcases seStep a e with _ | b
    · rfl
    · exact ih b

theorem seRun_transition (name : String) (hand : HandLabel)
    (prev v : Option ActiveGestureState) :
    seRun prev.isSome (transitionEvents name hand prev v) = some v.isSome := by
  rcases prev with _ | p <;> rcases v with _ | st <;>
    simp [transitionEvents, seRun, seStep, mkEndEvent]

/-- The full lifecycle theorem over runs: filtered to one gesture on one
hand, the event stream of any run is a legal lifecycle taking the gesture
from its initial activity to its final activity, and each evaluated tick
emits exactly the transition events of that tick (a skipped tick emits
nothing and changes nothing). -/
theorem run_lifecycle (opts : GestureRecognitionOptions)
    (detectors : DetectorRegistry) (ticks : List TickInput) (s₀ : GestureState)
    (name : String) (hand : HandLabel)
    (hg : (keysA opts.gestures).Nodup) (hs : GoodState s₀) :
    seRun (activeOn s₀ hand name)
        (eventsFor name hand (runEvents opts detectors s₀ ticks)) =
      some (activeOn (runState opts detectors s₀ ticks) hand name)
    ∧ (∀ step ∈ runTrace opts detectors s₀ ticks,
        (evaluatesTick opts step.2.1 step.1 →
          eventsFor name hand step.2.2.1 =
            transitionEvents name hand (lookupA name (handMap step.1 hand))
              (evalVerdict detectors opts.minimumConfidence opts.gestures
                (tickContext step.2.1 hand) name)
          ∧ activeOn step.2.2.2 hand name =
              (evalVerdict detectors opts.minimumConfidence opts.gestures
                (tickContext step.2.1 hand) name).isSome)
        ∧ (¬evaluatesTick opts step.2.1 step.1 →
            step.2.2.1 = [] ∧ step.2.2.2 = step.1)) := by
  induction ticks generalizing s₀ with
  | nil => exact ⟨rfl, by intro step h; exact absurd h (List.not_mem_nil step)⟩
  | cons t ts ih =>
    obtain ⟨ih1, ih2⟩ := ih (update opts detectors t s₀).1
      (update_good opts detectors t s₀ hs)
    by_cases hev : evaluatesTick opts t s₀
    · have hhead : eventsFor name hand (update opts detectors t s₀).2.1 =
          transitionEvents name hand (lookupA name (handMap s₀ hand))
            (evalVerdict detectors opts.minimumConfidence opts.gestures
              (tickContext t hand) name) :=
        update_eventsFor opts detectors t s₀ name hand hg hs hev
      have hact : activeOn (update opts detectors t s₀).1 hand name =
          (evalVerdict detectors opts.minimumConfidence opts.gestures
            (tickContext t hand) name).isSome := by
        unfold activeOn
        rw [update_lookup opts detectors t s₀ name hand hg hs hev]
      constructor
      · show seRun (activeOn s₀ hand name)
            (eventsFor name hand ((update opts detectors t s₀).2.1 ++
              runEvents opts detectors (update opts detectors t s₀).1 ts)) = _
        rw [eventsFor_append, seRun_append, hhead]
        have hse : seRun (activeOn s₀ hand name)
            (transitionEvents name hand (lookupA name (handMap s₀ hand))
              (evalVerdict detectors opts.minimumConfidence opts.gestures
                (tickContext t hand) name)) =
            some (evalVerdict detectors opts.minimumConfidence opts.gestures
                (tickContext t hand) name).isSome :=
          seRun_transition name hand (lookupA name (handMap s₀ hand)) _
        have hstate : runState opts detectors s₀ (t :: ts) =
            runState opts detectors (update opts detectors t s₀).1 ts := rfl
        rw [hse, hstate, ← hact]
        exact ih1
      · intro step hstep
        rcases List.mem_cons.mp hstep with h | h
        · subst h
          exact ⟨fun _ => ⟨hhead, hact⟩, fun hn => absurd hev hn⟩
        · exact ih2 step h
    · have hupd : update opts detectors t s₀ = (s₀, [], 0) :=
        update_eq_of_not_evaluates opts detectors t s₀ hev
      constructor
      · show seRun (activeOn s₀ hand name)
            (eventsFor name hand ((update opts detectors t s₀).2.1 ++
              runEvents opts detectors (update opts detectors t s₀).1 ts)) = _
        rw [hupd]
        show seRun (activeOn s₀ hand name)
            (eventsFor name hand ([] ++ runEvents opts detectors s₀ ts)) = _
        rw [List.nil_append]
        have hstate : runState opts detectors s₀ (t :: ts) =
            runState opts detectors s₀ ts := by
          show runState opts detectors (update opts detectors t s₀).1 ts = _
          rw [hupd]
        rw [hstate]
        exact (ih s₀ hs).1
      · intro step hstep
        rcases List.mem_cons.mp hstep with h | h
        · subst h
          refine ⟨fun hc => absurd hc hev, fun _ => ?_⟩
          constructor
          · show (update opts detectors t s₀).2.1 = []
            rw [hupd]
          · show (update opts detectors t s₀).1 = s₀
            rw [hupd]
        · exact ih2 step h

/-! ## Claim theorems -/

/-- C1: on an evaluation tick of a tracked hand, for an enabled gesture with
a registered detector: no prior state + confidence at/above the minimum ⇒
added to the active set and `gesturestart` emitted with the clamped
confidence and the detector's data; prior state + below-minimum confidence
or no result ⇒ removed and `gestureend` with confidence 0; prior state +
still at/above ⇒ state overwritten and `gestureupdate`; no prior state +
below ⇒ no event and no state. -/
theorem c1_evaluator_transitions
    (detectors : DetectorRegistry) (minConf : ℚ) (ctx : HandContext)
    (hand : HandLabel) (gestures : List (String × GestureConfiguration))
    (activeMap : List (String × ActiveGestureState))
    (name : String) (cfg : GestureConfiguration) (d : Detector)
    (hg : (keysA gestures).Nodup) (hm : (keysA activeMap).Nodup)
    (hin : lookupA name gestures = some cfg) (hen : cfg.enabled = true)
    (hdet : detectors name = some d) :
    (∀ r, d ctx cfg = some r → minConf ≤ r.confidence →
      lookupA name activeMap = none →
      lookupA name (evaluateHand detectors minConf gestures hand (some ctx) activeMap).1 =
        some ⟨clamp r.confidence 0 1, r.data⟩ ∧
      eventsFor name hand
          (evaluateHand detectors minConf gestures hand (some ctx) activeMap).2 =
        [⟨.gesturestart, ⟨name, hand, clamp r.confidence 0 1, r.data⟩⟩])
    ∧ (∀ st, lookupA name activeMap = some st →
        (d ctx cfg = none ∨ ∃ r, d ctx cfg = some r ∧ r.confidence < minConf) →
        lookupA name (evaluateHand detectors minConf gestures hand (some ctx) activeMap).1 =
          none ∧
        eventsFor name hand
            (evaluateHand detectors minConf gestures hand (some ctx) activeMap).2 =
          [mkEndEvent name hand])
    ∧ (∀ r st, d ctx cfg = some r → minConf ≤ r.confidence →
        lookupA name activeMap = some st →
        lookupA name (evaluateHand detectors minConf gestures hand (some ctx) activeMap).1 =
          some ⟨clamp r.confidence 0 1, r.data⟩ ∧
        eventsFor name hand
            (evaluateHand detectors minConf gestures hand (some ctx) activeMap).2 =
          [⟨.gestureupdate, ⟨name, hand, clamp r.confidence 0 1, r.data⟩⟩])
    ∧ (lookupA name activeMap = none →
        (d ctx cfg = none ∨ ∃ r, d ctx cfg = some r ∧ r.confidence < minConf) →
        lookupA name (evaluateHand detectors minConf gestures hand (some ctx) activeMap).1 =
          none ∧
        eventsFor name hand
            (evaluateHand detectors minConf gestures hand (some ctx) activeMap).2 =
          []) := by
  obtain ⟨hl, he⟩ := evaluateHand_spec detectors minConf hand gestures (some ctx)
    activeMap name hg hm
  have hv : evalVerdict detectors minConf gestures (some ctx) name =
      (match d ctx cfg with
       | some r =>
         if minConf ≤ r.confidence then some ⟨clamp r.confidence 0 1, r.data⟩
         else none
       | none => none) := by
    simp [evalVerdict, hin, gestureVerdict, hen, hdet]
  refine ⟨?_, ?_, ?_, ?_⟩
  · intro r hr hc hprev
    have hv1 : evalVerdict detectors minConf gestures (some ctx) name =
        some ⟨clamp r.confidence 0 1, r.data⟩ := by
      rw [hv, hr]; simp [hc]
    rw [hv1] at hl he
    rw [hprev] at he
    exact ⟨hl, by simpa [transitionEvents] using he⟩
  · intro st hprev hcase
    have hv1 : evalVerdict detectors minConf gestures (some ctx) name = none := by
      rcases hcase with hnone | ⟨r, hr, hlt⟩
      · rw [hv, hnone]
      · rw [hv, hr]; simp [not_le.mpr hlt]
    rw [hv1] at hl he
    rw [hprev] at he
    exact ⟨hl, by simpa [transitionEvents] using he⟩
  · intro r st hr hc hprev
    have hv1 : evalVerdict detectors minConf gestures (some ctx) name =
        some ⟨clamp r.confidence 0 1, r.data⟩ := by
      rw [hv, hr]; simp [hc]
    rw [hv1] at hl he
    rw [hprev] at he
    exact ⟨hl, by simpa [transitionEvents] using he⟩
  · intro hprev hcase
    have hv1 : evalVerdict detectors minConf gestures (some ctx) name = none := by
      rcases hcase with hnone | ⟨r, hr, hlt⟩
      · rw [hv, hnone]
      · rw [hv, hr]; simp [not_le.mpr hlt]
    rw [hv1] at hl he
    rw [hprev] at he
    exact ⟨hl, by simpa [transitionEvents] using he⟩

/-- C3: when a hand yields no valid pose this tick (built context `null`),
the evaluator emits exactly one `gestureend` with confidence 0 for each
currently active gesture on that hand, and the hand's active set is empty
afterwards — whatever the previous state was. -/
theorem c3_hand_loss_closure (detectors : DetectorRegistry) (minConf : ℚ)
    (gestures : List (String × GestureConfiguration)) (hand : HandLabel)
    (activeMap : List (String × ActiveGestureState))
    (hm : (keysA activeMap).Nodup) :
    evaluateHand detectors minConf gestures hand none activeMap =
      ([], activeMap.map fun p => mkEndEvent p.1 hand)
    ∧ (∀ name ∈ keysA activeMap,
        eventsFor name hand
            (evaluateHand detectors minConf gestures hand none activeMap).2 =
          [mkEndEvent name hand])
    ∧ (evaluateHand detectors minConf gestures hand none activeMap).2.length =
        activeMap.length := by
  refine ⟨rfl, ?_, by simp [evaluateHand]⟩
  intro name hname
  show eventsFor name hand (activeMap.map fun p => mkEndEvent p.1 hand) =
    [mkEndEvent name hand]
  rw [eventsFor_endMap, filter_key_eq hm]
  rcases hprev : lookupA name activeMap with _ | st
  · exact absurd (lookupA_eq_none_iff.mp hprev) (by simpa using hname)
  · rfl

/-- C4 counterexample: a tracked hand (context built from the thumb joint
alone), an active `pinch`, and the registered pinch detector returning
no-result because `index-finger-tip` is missing: the gesture IS removed from
the active set and a `gestureend` IS emitted — contradicting the claim that
only full hand loss closes active gestures. -/
theorem c4_counterexample :
    (evaluateHand
        (fun n => if n = "pinch" then some (computePinch fun _ _ => 0) else none)
        (1/2) [("pinch", ⟨true, none⟩)] .left
        (some ⟨.left, [("thumb-tip", ((0 : ℚ), (0 : ℚ), (0 : ℚ)))]⟩)
        [("pinch", ⟨9/10, none⟩)]).1 = []
    ∧ (evaluateHand
        (fun n => if n = "pinch" then some (computePinch fun _ _ => 0) else none)
        (1/2) [("pinch", ⟨true, none⟩)] .left
        (some ⟨.left, [("thumb-tip", ((0 : ℚ), (0 : ℚ), (0 : ℚ)))]⟩)
        [("pinch", ⟨9/10, none⟩)]).2 = [mkEndEvent "pinch" .left] := by
  constructor <;> rfl

/-- C4 (amended): on a tracked hand, an already-active enabled gesture whose
detector returns no-result this tick (e.g. a required joint is missing) IS
ended by that tick alone: it is removed from the active set and a
`gestureend` with confidence 0 is emitted, even though the hand was not
lost. -/
theorem c4_amended_no_result_ends (detectors : DetectorRegistry) (minConf : ℚ)
    (ctx : HandContext) (hand : HandLabel)
    (gestures : List (String × GestureConfiguration))
    (activeMap : List (String × ActiveGestureState))
    (name : String) (cfg : GestureConfiguration) (d : Detector)
    (st : ActiveGestureState)
    (hg : (keysA gestures).Nodup) (hm : (keysA activeMap).Nodup)
    (hin : lookupA name gestures = some cfg) (hen : cfg.enabled = true)
    (hdet : detectors name = some d) (hres : d ctx cfg = none)
    (hprev : lookupA name activeMap = some st) :
    lookupA name (evaluateHand detectors minConf gestures hand (some ctx) activeMap).1 =
      none
    ∧ eventsFor name hand
        (evaluateHand detectors minConf gestures hand (some ctx) activeMap).2 =
      [mkEndEvent name hand] := by
  obtain ⟨hl, he⟩ := evaluateHand_spec detectors minConf hand gestures (some ctx)
    activeMap name hg hm
  have hv : evalVerdict detectors minConf gestures (some ctx) name = none := by
    simp [evalVerdict, hin, gestureVerdict, hen, hdet, hres]
  rw [hv] at hl he
  rw [hprev] at he
  exact ⟨hl, by simpa [transitionEvents] using he⟩

/-- C10: the throttling clock is shared by both hands: every `update()` call
either evaluates both hands against this tick's contexts (and stamps the
shared timestamp) or leaves the whole state unchanged and emits nothing.
There is no state in which one hand is evaluated and the other is not. -/
theorem c10_both_hands_or_neither (opts : GestureRecognitionOptions)
    (detectors : DetectorRegistry) (tick : TickInput) (s : GestureState) :
    ((update opts detectors tick s).1.activeLeft =
        (evaluateHand detectors opts.minimumConfidence opts.gestures
          .left tick.leftContext s.activeLeft).1
      ∧ (update opts detectors tick s).1.activeRight =
        (evaluateHand detectors opts.minimumConfidence opts.gestures
          .right tick.rightContext s.activeRight).1
      ∧ (update opts detectors tick s).1.lastEvaluation = tick.now)
    ∨ ((update opts detectors tick s).1 = s ∧
        (update opts detectors tick s).2.1 = []) := by
  by_cases hev : evaluatesTick opts tick s
  · rw [update_eq_of_evaluates opts detectors tick s hev]
    exact Or.inl ⟨rfl, rfl, rfl⟩
  · rw [update_eq_of_not_evaluates opts detectors tick s hev]
    exact Or.inr ⟨rfl, rfl⟩

/-- The verdict is positive exactly when the gesture was evaluated this tick
(tracked hand, configured, enabled, registered detector) with confidence at
or above the minimum. -/
theorem evalVerdict_isSome_iff (detectors : DetectorRegistry) (minConf : ℚ)
    (gestures : List (String × GestureConfiguration))
    (context : Option HandContext) (name : String) :
    (evalVerdict detectors minConf gestures context name).isSome = true ↔
      ∃ ctx cfg d r, context = some ctx ∧ lookupA name gestures = some cfg ∧
        cfg.enabled = true ∧ detectors name = some d ∧ d ctx cfg = some r ∧
        minConf ≤ r.confidence := by
  constructor
  · intro h
    rcases context with _ | ctx
    · simp [evalVerdict] at h
    · rcases hcfg : lookupA name gestures with _ | cfg
      · simp [evalVerdict, hcfg] at h
      · by_cases hen : cfg.enabled
        · rcases hdet : detectors name with _ | d
          · simp [evalVerdict, hcfg, gestureVerdict, hen, hdet] at h
          · rcases hres : d ctx cfg with _ | r
            · simp [evalVerdict, hcfg, gestureVerdict, hen, hdet, hres] at h
            · by_cases hconf : minConf ≤ r.confidence
              · exact ⟨ctx, cfg, d, r, rfl, rfl, hen, rfl, hres, hconf⟩
              · simp [evalVerdict, hcfg, gestureVerdict, hen, hdet, hres, hconf] at h
        · simp [evalVerdict, hcfg, gestureVerdict, hen] at h
  · rintro ⟨ctx, cfg, d, r, rfl, hcfg, hen, hdet, hres, hconf⟩
    simp [evalVerdict, hcfg, gestureVerdict, hen, hdet, hres, hconf]

/-- C2: invariant preserved by every `update()` call: either the call changed
nothing (disabled / invalid hands / throttled), or afterwards a gesture name
is in a hand's active map exactly when this evaluation of that gesture on
that hand ran (tracked hand, configured, enabled, registered detector) and
produced confidence at or above `minimumConfidence`. -/
theorem c2_active_set_invariant (opts : GestureRecognitionOptions)
    (detectors : DetectorRegistry) (tick : TickInput) (s : GestureState)
    (hand : HandLabel) (name : String)
    (hg : (keysA opts.gestures).Nodup) (hs : GoodState s) :
    ((update opts detectors tick s).1.activeLeft = s.activeLeft ∧
      (update opts detectors tick s).1.activeRight = s.activeRight)
    ∨ (activeOn (update opts detectors tick s).1 hand name = true ↔
        ∃ ctx cfg d r, tickContext tick hand = some ctx ∧
          lookupA name opts.gestures = some cfg ∧ cfg.enabled = true ∧
          detectors name = some d ∧ d ctx cfg = some r ∧
          opts.minimumConfidence ≤ r.confidence) := by
  by_cases hev : evaluatesTick opts tick s
  · refine Or.inr ?_
    unfold activeOn
    rw [update_lookup opts detectors tick s name hand hg hs hev]
    exact evalVerdict_isSome_iff detectors opts.minimumConfidence opts.gestures
      (tickContext tick hand) name
  · rw [update_eq_of_not_evaluates opts detectors tick s hev]
    exact Or.inl ⟨rfl, rfl⟩

/-- C6: with a configured update interval (non-`webxr` provider and
`updateIntervalMs > 0`) and elapsed time below the interval, `update()` is a
complete no-op: same state (both hands' maps and the timestamp), no events,
no warnings.  With the `webxr` provider the effective interval is 0 and every
enabled, valid tick runs a full evaluation stamping `lastEvaluation := now`. -/
theorem c6_throttling (opts : GestureRecognitionOptions)
    (detectors : DetectorRegistry) (tick : TickInput) (s : GestureState) :
    (opts.provider ≠ "webxr" → 0 < opts.updateIntervalMs →
      tick.now - s.lastEvaluation < opts.updateIntervalMs →
      update opts detectors tick s = (s, [], 0))
    ∧ (opts.provider = "webxr" → opts.enabled = true → tick.handsValid = true →
      update opts detectors tick s =
        ({ activeLeft := (evaluateHand detectors opts.minimumConfidence opts.gestures
              .left tick.leftContext s.activeLeft).1,
           activeRight := (evaluateHand detectors opts.minimumConfidence opts.gestures
              .right tick.rightContext s.activeRight).1,
           lastEvaluation := tick.now,
           providerWarned := s.providerWarned || opts.provider ≠ "webxr" },
         (evaluateHand detectors opts.minimumConfidence opts.gestures
            .left tick.leftContext s.activeLeft).2 ++
           (evaluateHand detectors opts.minimumConfidence opts.gestures
              .right tick.rightContext s.activeRight).2,
         if opts.provider ≠ "webxr" ∧ !s.providerWarned then 1 else 0)) := by
  constructor
  · intro hp hpos hlt
    apply update_eq_of_not_evaluates
    rintro ⟨_, _, hn⟩
    rw [if_neg hp] at hn
    exact hn ⟨hpos, hlt⟩
  · intro hp h1 h2
    apply update_eq_of_evaluates
    refine ⟨h1, h2, ?_⟩
    rw [if_pos hp]
    rintro ⟨hc, _⟩
    exact lt_irrefl 0 hc

/-- One tick's warn accounting: the warnings this tick plus the remaining
allowance after the tick never exceed the allowance before it. -/
theorem update_warn_accounting (opts : GestureRecognitionOptions)
    (detectors : DetectorRegistry) (t : TickInput) (s : GestureState) :
    (update opts detectors t s).2.2 +
        (if (update opts detectors t s).1.providerWarned = true then 0 else 1) ≤
      (if s.providerWarned = true then 0 else 1) := by
  by_cases hev : evaluatesTick opts t s
  · rw [update_eq_of_evaluates opts detectors t s hev]
    by_cases hw : s.providerWarned = true
    · simp [hw]
    · by_cases hp : opts.provider = "webxr"
      · simp [hw, hp]
      · simp [hw, hp]
  · rw [update_eq_of_not_evaluates opts detectors t s hev]
    simp

/-- Total warnings over a run are bounded by the warn-allowance of the
starting state: once `providerWarned` is set, no further warning fires. -/
theorem runWarnings_bound (opts : GestureRecognitionOptions)
    (detectors : DetectorRegistry) (ticks : List TickInput) (s : GestureState) :
    runWarnings opts detectors s ticks ≤
      if s.providerWarned = true then 0 else 1 := by
  induction ticks generalizing s with
  | nil =>
    show 0 ≤ _
    split <;> simp
  | cons t ts ih =>
    show (update opts detectors t s).2.2 +
        runWarnings opts detectors (update opts detectors t s).1 ts ≤ _
    calc (update opts detectors t s).2.2 +
          runWarnings opts detectors (update opts detectors t s).1 ts
        ≤ (update opts detectors t s).2.2 +
            (if (update opts detectors t s).1.providerWarned = true then 0 else 1) :=
          Nat.add_le_add_left (ih (update opts detectors t s).1) _
      _ ≤ _ := update_warn_accounting opts detectors t s

/-- C9: with any provider other than `webxr`, the engine falls back to the
built-in heuristics: over any run starting unwarned at most one warning is
logged, and an evaluated tick produces exactly the active maps and events the
`webxr` provider would produce on the same input (throttling apart). `update`
is a total function of its inputs, so no configuration makes it throw. -/
theorem c9_provider_fallback (opts : GestureRecognitionOptions)
    (detectors : DetectorRegistry) (ticks : List TickInput) (s₀ : GestureState)
    (tick : TickInput) (s : GestureState)
    (hp : opts.provider ≠ "webxr") (h0 : s₀.providerWarned = false)
    (hev : evaluatesTick opts tick s) :
    runWarnings opts detectors s₀ ticks ≤ 1
    ∧ (update opts detectors tick s).1.activeLeft =
        (update { opts with provider := "webxr" } detectors tick s).1.activeLeft
    ∧ (update opts detectors tick s).1.activeRight =
        (update { opts with provider := "webxr" } detectors tick s).1.activeRight
    ∧ (update opts detectors tick s).2.1 =
        (update { opts with provider := "webxr" } detectors tick s).2.1 := by
  have hwx : evaluatesTick { opts with provider := "webxr" } tick s := by
    obtain ⟨h1, h2, _⟩ := hev
    exact ⟨h1, h2, by simp⟩
  refine ⟨?_, ?_, ?_, ?_⟩
  · have hb := runWarnings_bound opts detectors ticks s₀
    rw [h0] at hb
    simpa using hb
  · rw [update_eq_of_evaluates opts detectors tick s hev,
      update_eq_of_evaluates _ detectors tick s hwx]
  · rw [update_eq_of_evaluates opts detectors tick s hev,
      update_eq_of_evaluates _ detectors tick s hwx]
  · rw [update_eq_of_evaluates opts detectors tick s hev,
      update_eq_of_evaluates _ detectors tick s hwx]

/-- C5: lifecycle completeness.  Over any run, the events for one gesture on
one hand form a legal lifecycle (`seRun` succeeds): exactly one `start` from
inactive, `update`s only while active, and exactly one `end` before the
gesture can start again, ending at the final activity.  Moreover each
evaluated tick emits exactly the transition determined by the previous state
and this tick's verdict (and a skipped tick emits nothing and changes
nothing). -/
theorem c5_lifecycle_completeness (opts : GestureRecognitionOptions)
    (detectors : DetectorRegistry) (ticks : List TickInput) (s₀ : GestureState)
    (name : String) (hand : HandLabel)
    (step : GestureState × TickInput × List GestureEvent × GestureState)
    (hg : (keysA opts.gestures).Nodup) (hs : GoodState s₀)
    (hstep : step ∈ runTrace opts detectors s₀ ticks) :
    seRun (activeOn s₀ hand name)
        (eventsFor name hand (runEvents opts detectors s₀ ticks)) =
      some (activeOn (runState opts detectors s₀ ticks) hand name)
    ∧ (evaluatesTick opts step.2.1 step.1 →
        eventsFor name hand step.2.2.1 =
          transitionEvents name hand (lookupA name (handMap step.1 hand))
            (evalVerdict detectors opts.minimumConfidence opts.gestures
              (tickContext step.2.1 hand) name)
        ∧ activeOn step.2.2.2 hand name =
            (evalVerdict detectors opts.minimumConfidence opts.gestures
              (tickContext step.2.1 hand) name).isSome)
    ∧ (¬evaluatesTick opts step.2.1 step.1 →
        step.2.2.1 = [] ∧ step.2.2.2 = step.1) := by
  obtain ⟨h1, h2⟩ := run_lifecycle opts detectors ticks s₀ name hand hg hs
  exact ⟨h1, (h2 step hstep).1, (h2 step hstep).2⟩

/-! ## Pinch arithmetic -/

theorem clamp_of_mem (v : ℚ) (h0 : 0 ≤ v) (h1 : v ≤ 1) : clamp v 0 1 = v := by
  unfold clamp
  rw [min_eq_right h1, max_eq_right h0]

theorem computePinchDist_above (cfg : GestureConfiguration) (t d : ℚ)
    (hthr : cfg.threshold = some t) (h : t < d) :
    computePinchDist cfg d =
      ⟨(1 - clamp (d / (t * (3/2))) 0 1) * (1/2), none⟩ := by
  simp only [computePinchDist, hthr, Option.getD_some]
  rw [if_pos h]

theorem computePinchDist_at_or_below (cfg : GestureConfiguration) (t d : ℚ)
    (hthr : cfg.threshold = some t) (ht : 0 < t) (h0 : 0 ≤ d) (h : d ≤ t) :
    computePinchDist cfg d =
      ⟨1 - d / (t * (3/2)), some [("distance", d)]⟩ := by
  have hT : 0 < t * (3/2) := by positivity
  have hdT : d ≤ t * (3/2) := le_trans h (by nlinarith)
  have hx1 : d / (t * (3/2)) ≤ 1 := (div_le_one hT).mpr hdT
  have hx0 : 0 ≤ d / (t * (3/2)) := div_nonneg h0 hT.le
  have hcl : clamp (d / (t * (3/2))) 0 1 = d / (t * (3/2)) :=
    clamp_of_mem _ hx0 hx1
  simp only [computePinchDist, hthr, Option.getD_some]
  rw [if_neg (not_lt.mpr h), hcl,
    clamp_of_mem _ (by linarith) (by linarith)]

theorem computePinchDist_zero (cfg : GestureConfiguration) (t : ℚ)
    (hthr : cfg.threshold = some t) (ht : 0 < t) :
    (computePinchDist cfg 0).confidence = 1 := by
  rw [computePinchDist_at_or_below cfg t 0 hthr ht le_rfl ht.le]
  simp

theorem computePinchDist_confidence (cfg : GestureConfiguration) (t d : ℚ)
    (hthr : cfg.threshold = some t) (ht : 0 < t) (h0 : 0 ≤ d)
    (hdT : d ≤ t * (3/2)) :
    (computePinchDist cfg d).confidence =
      if t < d then (1 - d / (t * (3/2))) * (1/2) else 1 - d / (t * (3/2)) := by
  have hT : 0 < t * (3/2) := by positivity
  by_cases h : t < d
  · rw [computePinchDist_above cfg t d hthr h, if_pos h,
      clamp_of_mem _ (div_nonneg h0 hT.le) ((div_le_one hT).mpr hdT)]
  · rw [computePinchDist_at_or_below cfg t d hthr ht h0 (not_lt.mp h), if_neg h]

/-- C7: pinch confidence monotonicity: with both joints resolved and a
positive threshold `t`, over distances in `[0, 1.5·t]` a smaller thumb–index
distance never yields a smaller confidence, and at distance 0 the confidence
is exactly 1. -/
theorem c7_pinch_monotonicity (cfg : GestureConfiguration) (t d₁ d₂ : ℚ)
    (hthr : cfg.threshold = some t) (ht : 0 < t)
    (h0 : 0 ≤ d₁) (h12 : d₁ ≤ d₂) (h2 : d₂ ≤ t * (3/2)) :
    (computePinchDist cfg d₂).confidence ≤ (computePinchDist cfg d₁).confidence
    ∧ (computePinchDist cfg 0).confidence = 1 := by
  have hT : 0 < t * (3/2) := by positivity
  have h01 : 0 ≤ d₂ := le_trans h0 h12
  have h1T : d₁ ≤ t * (3/2) := le_trans h12 h2
  have hteq : (2 : ℚ)/3 * (t * (3/2)) = t := by ring
  refine ⟨?_, computePinchDist_zero cfg t hthr ht⟩
  rw [computePinchDist_confidence cfg t d₁ hthr ht h0 h1T,
      computePinchDist_confidence cfg t d₂ hthr ht h01 h2]
  have hdiv : d₁ / (t * (3/2)) ≤ d₂ / (t * (3/2)) :=
    (div_le_div_right hT).mpr h12
  by_cases hc1 : t < d₁
  · rw [if_pos hc1, if_pos (lt_of_lt_of_le hc1 h12)]
    linarith
  · rw [if_neg hc1]
    by_cases hc2 : t < d₂
    · rw [if_pos hc2]
      have ht1 : d₁ / (t * (3/2)) ≤ 2/3 := by
        rw [div_le_iff hT]
        nlinarith [not_lt.mp hc1]
      have ht2 : (2 : ℚ)/3 ≤ d₂ / (t * (3/2)) := by
        rw [le_div_iff hT]
        nlinarith [hc2.le]
      linarith
    · rw [if_neg hc2]
      linarith

/-- C8 counterexample: at distance 0.02 below threshold 0.03 the pinch
detector returns the FULL ramp confidence 5/9, not the half-weighted value
the claim asserts for below-threshold distances (the 0.5 factor applies
above the threshold, line `if (distance > threshold)`). -/
theorem c8_counterexample :
    (computePinchDist ⟨true, some (3/100)⟩ (1/50)).confidence = 5/9
    ∧ (computePinchDist ⟨true, some (3/100)⟩ (1/50)).confidence ≠
        (1 - clamp ((1/50) / ((3/100) * (3/2))) 0 1) * (1/2) := by
  have hval := computePinchDist_at_or_below ⟨true, some (3/100)⟩ (3/100) (1/50)
    rfl (by norm_num) (by norm_num) (by norm_num)
  have hcl : clamp ((1/50) / ((3/100) * (3/2))) 0 1 =
      (1/50) / ((3/100) * (3/2)) :=
    clamp_of_mem _ (by norm_num) (by norm_num)
  rw [hval]
  dsimp only
  rw [hcl]
  constructor <;> norm_num

/-- C8 (amended): the half-weight penalty applies when the measured distance
EXCEEDS the threshold — the result is then the ramp confidence times 0.5
(still a result, not a no-result) without auxiliary data; at or below the
threshold the full ramp confidence is returned with the distance as data;
confidence reaches 1 at distance 0; and with both joints present the
detector always produces a result. -/
theorem c8_half_weight_above_threshold (cfg : GestureConfiguration)
    (t d : ℚ) (dist : Vec3 → Vec3 → ℚ) (ctxJ : HandContext)
    (thumb index : Vec3)
    (hthr : cfg.threshold = some t) (ht : 0 < t) (h0 : 0 ≤ d)
    (hthumb : lookupA "thumb-tip" ctxJ.joints = some thumb)
    (hindex : lookupA "index-finger-tip" ctxJ.joints = some index) :
    (t < d → computePinchDist cfg d =
      ⟨(1 - clamp (d / (t * (3/2))) 0 1) * (1/2), none⟩)
    ∧ (d ≤ t → computePinchDist cfg d =
      ⟨1 - d / (t * (3/2)), some [("distance", d)]⟩)
    ∧ (computePinchDist cfg 0).confidence = 1
    ∧ computePinch dist ctxJ cfg =
        some (computePinchDist cfg (dist thumb index)) := by
  refine ⟨fun h => computePinchDist_above cfg t d hthr h,
          fun h => computePinchDist_at_or_below cfg t d hthr ht h0 h,
          computePinchDist_zero cfg t hthr ht, ?_⟩
  simp [computePinch, hthumb, hindex]

/-! ## Witnesses: the claim theorems applied at concrete inputs -/

/-- Witness for C1: the four transitions realised on concrete inputs. -/
theorem c1_witness :
    (lookupA "g" (evaluateHand wDetectors 1 wGestures .left (some wCtxOne) []).1 =
        some ⟨clamp 1 0 1, none⟩
      ∧ eventsFor "g" .left
          (evaluateHand wDetectors 1 wGestures .left (some wCtxOne) []).2 =
        [⟨.gesturestart, ⟨"g", .left, clamp 1 0 1, none⟩⟩])
    ∧ (lookupA "g" (evaluateHand wDetectors 1 wGestures .left (some wCtxZero)
          [("g", ⟨1, none⟩)]).1 = none
      ∧ eventsFor "g" .left
          (evaluateHand wDetectors 1 wGestures .left (some wCtxZero)
            [("g", ⟨1, none⟩)]).2 =
        [mkEndEvent "g" .left])
    ∧ (lookupA "g" (evaluateHand wDetectors 1 wGestures .left (some wCtxOne)
          [("g", ⟨1, none⟩)]).1 = some ⟨clamp 1 0 1, none⟩
      ∧ eventsFor "g" .left
          (evaluateHand wDetectors 1 wGestures .left (some wCtxOne)
            [("g", ⟨1, none⟩)]).2 =
        [⟨.gestureupdate, ⟨"g", .left, clamp 1 0 1, none⟩⟩])
    ∧ (lookupA "g" (evaluateHand wDetectors 1 wGestures .left (some wCtxZero) []).1 =
        none
      ∧ eventsFor "g" .left
          (evaluateHand wDetectors 1 wGestures .left (some wCtxZero) []).2 = []) :=
  ⟨(c1_evaluator_transitions wDetectors 1 wCtxOne .left wGestures [] "g"
      ⟨true, none⟩ wDetector (by decide) (by decide) rfl rfl rfl).1
      ⟨1, none⟩ rfl (by norm_num) rfl,
   (c1_evaluator_transitions wDetectors 1 wCtxZero .left wGestures
      [("g", ⟨1, none⟩)] "g" ⟨true, none⟩ wDetector (by decide) (by decide)
      rfl rfl rfl).2.1 ⟨1, none⟩ rfl (Or.inr ⟨⟨0, none⟩, rfl, by norm_num⟩),
   (c1_evaluator_transitions wDetectors 1 wCtxOne .left wGestures
      [("g", ⟨1, none⟩)] "g" ⟨true, none⟩ wDetector (by decide) (by decide)
      rfl rfl rfl).2.2.1 ⟨1, none⟩ ⟨1, none⟩ rfl (by norm_num) rfl,
   (c1_evaluator_transitions wDetectors 1 wCtxZero .left wGestures [] "g"
      ⟨true, none⟩ wDetector (by decide) (by decide) rfl rfl rfl).2.2.2
      rfl (Or.inr ⟨⟨0, none⟩, rfl, by norm_num⟩)⟩

/-- Witness for C2: an evaluated tick on concrete inputs. -/
theorem c2_witness :
    ((update wOpts wDetectors wTickA initialState).1.activeLeft =
        initialState.activeLeft ∧
      (update wOpts wDetectors wTickA initialState).1.activeRight =
        initialState.activeRight)
    ∨ (activeOn (update wOpts wDetectors wTickA initialState).1 .left "g" = true ↔
        ∃ ctx cfg d r, tickContext wTickA .left = some ctx ∧
          lookupA "g" wOpts.gestures = some cfg ∧ cfg.enabled = true ∧
          wDetectors "g" = some d ∧ d ctx cfg = some r ∧
          wOpts.minimumConfidence ≤ r.confidence) :=
  c2_active_set_invariant wOpts wDetectors wTickA initialState .left "g"
    (by decide) ⟨List.nodup_nil, List.nodup_nil⟩

/-- Witness for C3: losing a hand with two active gestures emits exactly two
end events and empties the active set. -/
theorem c3_witness :
    evaluateHand wDetectors 1 wGestures .left none
        [("pinch", ⟨1, none⟩), ("fist", ⟨1, none⟩)] =
      ([], [mkEndEvent "pinch" .left, mkEndEvent "fist" .left])
    ∧ eventsFor "pinch" .left
        (evaluateHand wDetectors 1 wGestures .left none
          [("pinch", ⟨1, none⟩), ("fist", ⟨1, none⟩)]).2 =
      [mkEndEvent "pinch" .left]
    ∧ eventsFor "fist" .left
        (evaluateHand wDetectors 1 wGestures .left none
          [("pinch", ⟨1, none⟩), ("fist", ⟨1, none⟩)]).2 =
      [mkEndEvent "fist" .left]
    ∧ (evaluateHand wDetectors 1 wGestures .left none
        [("pinch", ⟨1, none⟩), ("fist", ⟨1, none⟩)]).2.length = 2 := by
  have h := c3_hand_loss_closure wDetectors 1 wGestures .left
    [("pinch", ⟨1, none⟩), ("fist", ⟨1, none⟩)] (by decide)
  exact ⟨h.1, h.2.1 "pinch" (by decide), h.2.1 "fist" (by decide), h.2.2⟩

/-- Witness for C4 (amended): the counterexample input run through the
amended theorem. -/
theorem c4_witness :
    lookupA "pinch" (evaluateHand
        (fun n => if n = "pinch" then some (computePinch fun _ _ => 0) else none)
        (1/2) [("pinch", ⟨true, none⟩)] .left
        (some ⟨.left, [("thumb-tip", ((0 : ℚ), (0 : ℚ), (0 : ℚ)))]⟩)
        [("pinch", ⟨9/10, none⟩)]).1 = none
    ∧ eventsFor "pinch" .left (evaluateHand
        (fun n => if n = "pinch" then some (computePinch fun _ _ => 0) else none)
        (1/2) [("pinch", ⟨true, none⟩)] .left
        (some ⟨.left, [("thumb-tip", ((0 : ℚ), (0 : ℚ), (0 : ℚ)))]⟩)
        [("pinch", ⟨9/10, none⟩)]).2 = [mkEndEvent "pinch" .left] :=
  c4_amended_no_result_ends
    (fun n => if n = "pinch" then some (computePinch fun _ _ => 0) else none)
    (1/2) ⟨.left, [("thumb-tip", ((0 : ℚ), (0 : ℚ), (0 : ℚ)))]⟩ .left
    [("pinch", ⟨true, none⟩)] [("pinch", ⟨9/10, none⟩)] "pinch"
    ⟨true, none⟩ (computePinch fun _ _ => 0) ⟨9/10, none⟩
    (by decide) (by decide) rfl rfl rfl rfl rfl

/-- Witness for C5: a two-tick run (start on tick 1, hand loss on tick 2). -/
theorem c5_witness :
    seRun (activeOn initialState .left "g")
        (eventsFor "g" .left
          (runEvents wOpts wDetectors initialState [wTickA, wTickB])) =
      some (activeOn (runState wOpts wDetectors initialState [wTickA, wTickB])
        .left "g")
    ∧ eventsFor "g" .left [mkEndEvent "g" .left] =
        transitionEvents "g" .left (lookupA "g" (handMap wStateMid .left))
          (evalVerdict wDetectors wOpts.minimumConfidence wOpts.gestures
            (tickContext wTickB .left) "g")
    ∧ activeOn wStateEnd .left "g" =
        (evalVerdict wDetectors wOpts.minimumConfidence wOpts.gestures
          (tickContext wTickB .left) "g").isSome := by
  have h := c5_lifecycle_completeness wOpts wDetectors [wTickA, wTickB]
    initialState "g" .left (wStateMid, wTickB, [mkEndEvent "g" .left], wStateEnd)
    (by decide) ⟨List.nodup_nil, List.nodup_nil⟩ (by decide)
  exact ⟨h.1, (h.2.1 (by decide)).1, (h.2.1 (by decide)).2⟩

/-- Witness for C6: a non-`webxr` tick below the interval is a no-op; with
`webxr` and `updateIntervalMs = 100`, two ticks 10 ms apart both evaluate. -/
theorem c6_witness :
    update ⟨true, "mediapipe", 100, 1, wGestures⟩ wDetectors
        ⟨10, true, some wCtxOne, none⟩ initialState = (initialState, [], 0)
    ∧ update ⟨true, "webxr", 100, 1, wGestures⟩ wDetectors
        ⟨1000, true, some wCtxOne, none⟩ initialState =
      (⟨[("g", ⟨1, none⟩)], [], 1000, false⟩,
        [⟨.gesturestart, ⟨"g", .left, 1, none⟩⟩], 0)
    ∧ update ⟨true, "webxr", 100, 1, wGestures⟩ wDetectors
        ⟨1010, true, some wCtxOne, none⟩ ⟨[("g", ⟨1, none⟩)], [], 1000, false⟩ =
      (⟨[("g", ⟨1, none⟩)], [], 1010, false⟩,
        [⟨.gestureupdate, ⟨"g", .left, 1, none⟩⟩], 0) :=
  ⟨(c6_throttling ⟨true, "mediapipe", 100, 1, wGestures⟩ wDetectors
      ⟨10, true, some wCtxOne, none⟩ initialState).1
      (by decide) (by norm_num) (by norm_num [initialState]),
   (c6_throttling ⟨true, "webxr", 100, 1, wGestures⟩ wDetectors
      ⟨1000, true, some wCtxOne, none⟩ initialState).2 rfl rfl rfl,
   (c6_throttling ⟨true, "webxr", 100, 1, wGestures⟩ wDetectors
      ⟨1010, true, some wCtxOne, none⟩ ⟨[("g", ⟨1, none⟩)], [], 1000, false⟩).2
      rfl rfl rfl⟩

/-- Witness for C7: threshold 0.03, distances 0.01 ≤ 0.04 within the ramp. -/
theorem c7_witness :
    (computePinchDist ⟨true, some (3/100)⟩ (4/100)).confidence ≤
      (computePinchDist ⟨true, some (3/100)⟩ (1/100)).confidence
    ∧ (computePinchDist ⟨true, some (3/100)⟩ 0).confidence = 1 :=
  c7_pinch_monotonicity ⟨true, some (3/100)⟩ (3/100) (1/100) (4/100)
    rfl (by norm_num) (by norm_num) (by norm_num) (by norm_num)

/-- Witness for C8 (amended): threshold 0.03; distance 0.06 takes the
half-weight branch, distance 0.02 the full-ramp branch; both joints present
always produce a result. -/
theorem c8_witness :
    computePinchDist ⟨true, some (3/100)⟩ (6/100) =
      ⟨(1 - clamp ((6/100) / ((3/100) * (3/2))) 0 1) * (1/2), none⟩
    ∧ computePinchDist ⟨true, some (3/100)⟩ (2/100) =
      ⟨1 - (2/100) / ((3/100) * (3/2)), some [("distance", 2/100)]⟩
    ∧ (computePinchDist ⟨true, some (3/100)⟩ 0).confidence = 1
    ∧ computePinch (fun _ _ => 0)
        ⟨.left, [("thumb-tip", ((0 : ℚ), (0 : ℚ), (0 : ℚ))),
                 ("index-finger-tip", ((0 : ℚ), (0 : ℚ), (0 : ℚ)))]⟩
        ⟨true, some (3/100)⟩ =
      some (computePinchDist ⟨true, some (3/100)⟩ 0) := by
  have h1 := c8_half_weight_above_threshold ⟨true, some (3/100)⟩ (3/100) (6/100)
    (fun _ _ => 0)
    ⟨.left, [("thumb-tip", ((0 : ℚ), (0 : ℚ), (0 : ℚ))),
             ("index-finger-tip", ((0 : ℚ), (0 : ℚ), (0 : ℚ)))]⟩
    (0, 0, 0) (0, 0, 0) rfl (by norm_num) (by norm_num) rfl rfl
  have h2 := c8_half_weight_above_threshold ⟨true, some (3/100)⟩ (3/100) (2/100)
    (fun _ _ => 0)
    ⟨.left, [("thumb-tip", ((0 : ℚ), (0 : ℚ), (0 : ℚ))),
             ("index-finger-tip", ((0 : ℚ), (0 : ℚ), (0 : ℚ)))]⟩
    (0, 0, 0) (0, 0, 0) rfl (by norm_num) (by norm_num) rfl rfl
  exact ⟨h1.1 (by norm_num), h2.2.1 (by norm_num), h1.2.2.1, h1.2.2.2⟩

/-- Witness for C9: provider `"mediapipe"` with a one-tick run. -/
theorem c9_witness :
    runWarnings ⟨true, "mediapipe", 0, 1, wGestures⟩ wDetectors initialState
        [wTickA] ≤ 1
    ∧ (update ⟨true, "mediapipe", 0, 1, wGestures⟩ wDetectors wTickA
        initialState).1.activeLeft =
      (update { (⟨true, "mediapipe", 0, 1, wGestures⟩ : GestureRecognitionOptions)
          with provider := "webxr" } wDetectors wTickA initialState).1.activeLeft
    ∧ (update ⟨true, "mediapipe", 0, 1, wGestures⟩ wDetectors wTickA
        initialState).1.activeRight =
      (update { (⟨true, "mediapipe", 0, 1, wGestures⟩ : GestureRecognitionOptions)
          with provider := "webxr" } wDetectors wTickA initialState).1.activeRight
    ∧ (update ⟨true, "mediapipe", 0, 1, wGestures⟩ wDetectors wTickA
        initialState).2.1 =
      (update { (⟨true, "mediapipe", 0, 1, wGestures⟩ : GestureRecognitionOptions)
          with provider := "webxr" } wDetectors wTickA initialState).2.1 :=
  c9_provider_fallback ⟨true, "mediapipe", 0, 1, wGestures⟩ wDetectors [wTickA]
    initialState wTickA initialState (by decide) rfl (by decide)

end XRBlocks
